import Mathlib

set_option maxRecDepth 100000

/-!
Verification development for the clinical workflow automation repository
(`data_store.py`, `functions.py`, `agent.py`).

Modelling conventions:
* Python dictionaries that are only iterated in insertion order or looked up
  by a key that is also stored in the record are modelled as association
  lists (`List`), which matches Python's insertion-ordered dicts.
* Calendar dates (strings `YYYY-MM-DD` in the source) are modelled as `Nat`
  day numbers: the source only ever compares well-formed dates of that fixed
  format, for which lexicographic string order coincides with day order, and
  adds day offsets (`timedelta(days=n)`), which becomes `Nat` addition.
  `datetime.now()` is passed in explicitly as a `today`/`now` parameter.
* Python truthiness is translated explicitly (`None`/empty string/empty list
  are falsy), e.g. `reason or "Follow-up appointment"` also replaces an
  empty string.
-/

/-- Python's `needle in hay` on strings: substring containment. -/
def listContains (needle : List Char) : List Char → Bool
  | [] => needle.isEmpty
  | c :: cs => needle.isPrefixOf (c :: cs) || listContains needle cs

/-- Python's `needle in hay` lifted to `String`. -/
def strContains (needle hay : String) : Bool :=
  listContains needle.toList hay.toList

/-- Python's `str.lower()` (ASCII case folding, as used by the source). -/
def pyLower (s : String) : String :=
  String.mk (s.toList.map Char.toLower)

/-- Python's `f"{n:04d}"`: decimal rendering left-padded with zeros to width 4. -/
def pad4 (n : Nat) : String :=
  let s := toString n
  if s.length < 4 then String.mk (List.replicate (4 - s.length) '0') ++ s.toList.asString
  else s

/-- Characters matched by `\s` in the source's regular expression (ASCII). -/
def pyIsSpace (c : Char) : Bool :=
  c = ' ' || c = '\t' || c = '\n' || c = '\r' || c = '\x0b' || c = '\x0c'

/-- ASCII letter: what `[A-Z]` / `[a-z]` match under `re.IGNORECASE`. -/
def isAsciiLetter (c : Char) : Bool :=
  ('a' ≤ c && c ≤ 'z') || ('A' ≤ c && c ≤ 'Z')

/-- Splits a character list at the longest prefix satisfying `p`
(the effect of a greedy character-class repetition in a regex). -/
def spanChars (p : Char → Bool) : List Char → List Char × List Char
  | [] => ([], [])
  | c :: cs =>
    if p c then
      let r := spanChars p cs
      (c :: r.1, r.2)
    else ([], c :: cs)

/-- A `Slot` record as stored in `ClinicalDataStore.available_slots`. -/
structure Slot where
  slot_id : String
  date : Nat
  time : String
  doctor : String
  duration_minutes : Nat
deriving DecidableEq

/-- A patient record as stored in `ClinicalDataStore.patients`. -/
structure Patient where
  patient_id : String
  name : String
  date_of_birth : String
  phone : String
  email : String
  address : String
  medical_record_number : String
deriving DecidableEq

/-- An insurance record as stored in `ClinicalDataStore.insurance`. -/
structure Insurance where
  patient_id : String
  insurance_provider : String
  policy_number : String
  coverage_type : String
  eligibility_status : String
  copay : Nat
  valid_until : String
deriving DecidableEq

/-- An appointment record as stored by `ClinicalDataStore.create_appointment`. -/
structure Appointment where
  appointment_id : String
  created_at : Nat
  patient_id : String
  patient_name : String
  slot_id : String
  specialty : String
  date : Nat
  time : String
  doctor : String
  duration_minutes : Nat
  reason : String
  status : String
deriving DecidableEq

/-- The `appointment_data` dictionary passed to `create_appointment`. -/
structure AppointmentData where
  patient_id : String
  patient_name : String
  slot_id : String
  specialty : String
  date : Nat
  time : String
  doctor : String
  duration_minutes : Nat
  reason : String
  status : String
deriving DecidableEq

/-- The mutable state of `ClinicalDataStore`: patients, insurance and
appointments (dicts in insertion order) and the per-specialty available
slot lists. -/
structure ClinicalDataStore where
  patients : List Patient
  insurance : List Insurance
  appointments : List Appointment
  available_slots : List (String × List Slot)
  appointment_counter : Nat
deriving DecidableEq

/-- Source `get_patient_by_name`: case-insensitive substring match over the
patients dict in iteration (insertion) order, first hit wins. -/
def get_patient_by_name (st : ClinicalDataStore) (name : String) : Option Patient :=
  st.patients.find? (fun p => strContains (pyLower name) (pyLower p.name))

/-- Source `get_patient_by_id`: dict lookup by patient id. -/
def get_patient_by_id (st : ClinicalDataStore) (patient_id : String) : Option Patient :=
  st.patients.find? (fun p => p.patient_id == patient_id)

/-- Source `get_insurance`: dict lookup by patient id. -/
def get_insurance (st : ClinicalDataStore) (patient_id : String) : Option Insurance :=
  st.insurance.find? (fun i => i.patient_id == patient_id)

/-- Source `get_available_slots`: the specialty's slot list (empty for an
unknown specialty), filtered to the inclusive date window when either bound
is given. -/
def get_available_slots (st : ClinicalDataStore) (specialty : String)
    (start_date end_date : Option Nat) : List Slot :=
  let slots := ((st.available_slots.find? (fun e => e.1 == specialty)).map (fun e => e.2)).getD []
  if start_date.isSome || end_date.isSome then
    slots.filter (fun slot =>
      (match start_date with
       | some sd => !decide (slot.date < sd)
       | none => true) &&
      (match end_date with
       | some ed => !decide (ed < slot.date)
       | none => true))
  else slots

/-- Removes the first slot with the given id from a slot list
(`specialty_slots.pop(i)` at the first index whose `slot_id` matches);
`none` when no slot matches. -/
def removeFirstSlot (slot_id : String) : List Slot → Option (List Slot)
  | [] => none
  | s :: rest =>
    if s.slot_id == slot_id then some rest
    else (removeFirstSlot slot_id rest).map (fun r => s :: r)

/-- Scan of `book_slot` over the specialties in dict order: rewrites the
first specialty entry containing the slot id, `none` if no entry does. -/
def bookSlotAux (slot_id : String) : List (String × List Slot) → Option (List (String × List Slot))
  | [] => none
  | (sp, slots) :: rest =>
    match removeFirstSlot slot_id slots with
    | some slots2 => some ((sp, slots2) :: rest)
    | none => (bookSlotAux slot_id rest).map (fun r => (sp, slots) :: r)

/-- Source `book_slot`: scans all specialties for the slot id; if found,
removes that slot and returns `true`, otherwise returns `false` with no
side effect. -/
def book_slot (st : ClinicalDataStore) (slot_id : String) : Bool × ClinicalDataStore :=
  match bookSlotAux slot_id st.available_slots with
  | some av => (true, { st with available_slots := av })
  | none => (false, st)

/-- Source `create_appointment`: allocates `APT-{counter:04d}`, stamps the
creation time, appends the record and bumps the counter. -/
def create_appointment (st : ClinicalDataStore) (d : AppointmentData) (now : Nat) :
    Appointment × ClinicalDataStore :=
  let apt : Appointment :=
    { appointment_id := "APT-" ++ pad4 st.appointment_counter
      created_at := now
      patient_id := d.patient_id
      patient_name := d.patient_name
      slot_id := d.slot_id
      specialty := d.specialty
      date := d.date
      time := d.time
      doctor := d.doctor
      duration_minutes := d.duration_minutes
      reason := d.reason
      status := d.status }
  (apt, { st with
            appointments := st.appointments ++ [apt]
            appointment_counter := st.appointment_counter + 1 })

/-- Source `get_appointment`: dict lookup by appointment id. -/
def get_appointment (st : ClinicalDataStore) (appointment_id : String) : Option Appointment :=
  st.appointments.find? (fun a => a.appointment_id == appointment_id)

/-- The FHIR-style name object built by `search_patient`. -/
structure FHIRName where
  family : String
  given : List String
deriving DecidableEq

/-- The FHIR-style patient representation returned by `search_patient`. -/
structure FHIRPatient where
  id : String
  identifierValue : String
  name : List FHIRName
  phone : String
  email : String
  birthDate : String
  address : String
deriving DecidableEq

/-- Result dictionary of the `search_patient` capability. -/
structure SearchPatientResult where
  success : Bool
  error : Option String
  patient : Option FHIRPatient
deriving DecidableEq

/-- The `eligibility` dictionary built by `check_insurance_eligibility`. -/
structure Eligibility where
  patient_id : String
  status : String
  provider : String
  policy_number : String
  coverage_type : String
  copay_amount : Nat
  valid_until : String
  is_eligible : Bool
deriving DecidableEq

/-- Result dictionary of the `check_insurance_eligibility` capability. -/
structure InsuranceResult where
  success : Bool
  error : Option String
  eligibility : Option Eligibility
deriving DecidableEq

/-- Result dictionary of the `find_available_slots` capability. -/
structure SlotsResult where
  success : Bool
  specialty : String
  search_start : Nat
  search_end : Nat
  available_slots : List Slot
  count : Nat
deriving DecidableEq

/-- Result dictionary of the `book_appointment` capability. The source
response repeats the stored appointment's fields; we carry the stored
`Appointment` record itself. -/
structure BookResult where
  success : Bool
  error : Option String
  appointment : Option Appointment
deriving DecidableEq

/-- Python's `str.split()` with no argument: whitespace-separated words,
empty fragments dropped. -/
def pySplit (s : String) : List String :=
  (s.split pyIsSpace).filter (fun w => w ≠ "")

/-- The FHIR-style rendering of a stored patient used by `search_patient`:
family is the last whitespace-separated word of the name, given is the rest
(or the whole name when it is a single word). -/
def fhir_of_patient (p : Patient) : FHIRPatient :=
  let words := pySplit p.name
  { id := p.patient_id
    identifierValue := p.medical_record_number
    name := [{ family := (words.getLast?).getD ""
               given := if words.length > 1 then words.dropLast else [p.name] }]
    phone := p.phone
    email := p.email
    birthDate := p.date_of_birth
    address := p.address }

/-- Source `search_patient`: resolves the name through the store and either
fails with a not-found error or returns the FHIR-style record. -/
def search_patient (st : ClinicalDataStore) (name : String) : SearchPatientResult :=
  match get_patient_by_name st name with
  | none =>
    { success := false
      error := some ("Patient '" ++ name ++ "' not found")
      patient := none }
  | some p =>
    { success := true, error := none, patient := some (fhir_of_patient p) }

/-- Source `check_insurance_eligibility`: store lookup, not-found error or
the eligibility summary with the derived `is_eligible` flag. -/
def check_insurance_eligibility (st : ClinicalDataStore) (patient_id : String) : InsuranceResult :=
  match get_insurance st patient_id with
  | none =>
    { success := false
      error := some ("Insurance information not found for patient " ++ patient_id)
      eligibility := none }
  | some ins =>
    { success := true
      error := none
      eligibility := some
        { patient_id := patient_id
          status := ins.eligibility_status
          provider := ins.insurance_provider
          policy_number := ins.policy_number
          coverage_type := ins.coverage_type
          copay_amount := ins.copay
          valid_until := ins.valid_until
          is_eligible := ins.eligibility_status == "Active" } }

/-- Source `find_available_slots`: defaults the start date to today,
computes the end of the window as `start + days_ahead`, delegates to the
store and always succeeds. -/
def find_available_slots (st : ClinicalDataStore) (today : Nat) (specialty : String)
    (start_date : Option Nat) (days_ahead : Nat) : SlotsResult :=
  let sd := start_date.getD today
  let ed := sd + days_ahead
  let slots := get_available_slots st specialty (some sd) (some ed)
  { success := true
    specialty := specialty
    search_start := sd
    search_end := ed
    available_slots := slots
    count := slots.length }

/-- Python's `reason or "Follow-up appointment"`: the default also replaces
an explicitly given empty string, because `""` is falsy. -/
def reason_or_default (reason : Option String) : String :=
  match reason with
  | some r => if r = "" then "Follow-up appointment" else r
  | none => "Follow-up appointment"

/-- Source `book_appointment`: validates the patient, looks the slot up in
the specialty's available slots, removes it via `book_slot` and creates the
appointment record; each validation failure returns an error without
touching the store. -/
def book_appointment (st : ClinicalDataStore) (now : Nat)
    (patient_id slot_id specialty : String) (reason : Option String) :
    BookResult × ClinicalDataStore :=
  match get_patient_by_id st patient_id with
  | none =>
    ({ success := false
       error := some ("Patient " ++ patient_id ++ " not found")
       appointment := none }, st)
  | some patient =>
    let slots := get_available_slots st specialty none none
    match slots.find? (fun s => s.slot_id == slot_id) with
    | none =>
      ({ success := false
         error := some ("Slot " ++ slot_id ++ " not available for specialty " ++ specialty)
         appointment := none }, st)
    | some slot =>
      let booked := book_slot st slot_id
      if booked.1 = false then
        ({ success := false
           error := some ("Failed to book slot " ++ slot_id)
           appointment := none }, booked.2)
      else
        let d : AppointmentData :=
          { patient_id := patient_id
            patient_name := patient.name
            slot_id := slot_id
            specialty := specialty
            date := slot.date
            time := slot.time
            doctor := slot.doctor
            duration_minutes := slot.duration_minutes
            reason := reason_or_default reason
            status := "Confirmed" }
        let ca := create_appointment booked.2 d now
        ({ success := true, error := none, appointment := some ca.1 }, ca.2)

/-- The medical-advice keyword list of `ClinicalAgent._validate_request`. -/
def medical_advice_keywords : List String :=
  ["diagnose", "diagnosis", "treatment", "medicine", "prescribe", "what disease", "what illness"]

/-- The destructive-action keyword list of `ClinicalAgent._validate_request`. -/
def unsafe_keywords : List String :=
  ["delete", "remove", "cancel appointment", "modify patient"]

/-- The fixed refusal message for medical-advice requests. -/
def medical_advice_message : String :=
  "I cannot provide medical advice, diagnosis, or treatment recommendations. I can only help with workflow tasks like scheduling appointments and checking eligibility."

/-- The fixed refusal message for destructive actions. -/
def destructive_action_message : String :=
  "I cannot perform destructive actions. I can only schedule appointments and retrieve information."

/-- Source `_validate_request`: medical-advice keywords are checked first,
then destructive keywords with the `"cancel" not in text` carve-out;
returns the refusal message, or `none` when the request is allowed. -/
def validate_request (request : String) : Option String :=
  let rl := pyLower request
  if medical_advice_keywords.any (fun k => strContains k rl) then
    some medical_advice_message
  else if (unsafe_keywords.any (fun k => strContains k rl)) && !(strContains "cancel" rl) then
    some destructive_action_message
  else none

/-- Case-insensitive literal prefix match: consumes `kw` from the front of
`cs` and returns the remainder, or `none`. This implements one branch of
the regex alternation `(?:patient|for|with)` under `re.IGNORECASE`. -/
def startsWithCI : List Char → List Char → Option (List Char)
  | [], cs => some cs
  | _ :: _, [] => none
  | k :: kw, c :: cs => if c.toLower = k.toLower then startsWithCI kw cs else none

/-- Greedy matcher for `(?:\s+[A-Z][a-z]+)*` under `re.IGNORECASE`:
each iteration consumes a nonempty whitespace run followed by a letter run
of length at least two, returning the consumed characters and the rest.
Because the whitespace and letter character classes are disjoint, the
regex engine's backtracking can never extend a failed repetition, so this
greedy scan is exact. The recursion is driven by an explicit iteration
bound so that the definition reduces structurally; every iteration
consumes at least three characters, so any bound of at least the input
length is exact (theorem `matchTailF_fuel_irrelevant` below). -/
def matchTailF : Nat → List Char → List Char × List Char
  | 0, cs => ([], cs)
  | fuel + 1, cs =>
    let sp1 := spanChars pyIsSpace cs
    if sp1.1.isEmpty then ([], cs)
    else
      let w1 := spanChars isAsciiLetter sp1.2
      if w1.1.length < 2 then ([], cs)
      else
        let m := matchTailF fuel w1.2
        (sp1.1 ++ w1.1 ++ m.1, m.2)

/-- The greedy `(?:\s+[A-Z][a-z]+)*` matcher at its exact iteration bound. -/
def matchTail (cs : List Char) : List Char × List Char :=
  matchTailF cs.length cs

/-- Matcher for `\s+([A-Z][a-z]+(?:\s+[A-Z][a-z]+)+)` under `re.IGNORECASE`,
applied right after one of the keywords: a nonempty whitespace run, a first
word of at least two letters, then at least one further whitespace+word
group. Returns the characters captured by the group. -/
def matchAfterKeyword (cs : List Char) : Option (List Char) :=
  let sp1 := spanChars pyIsSpace cs
  if sp1.1.isEmpty then none
  else
    let w1 := spanChars isAsciiLetter sp1.2
    if w1.1.length < 2 then none
    else
      let tl := matchTail w1.2
      if tl.1.isEmpty then none
      else some (w1.1 ++ tl.1)

/-- Attempts the whole pattern `(?:patient|for|with)\s+([A-Z][a-z]+(?:\s+[A-Z][a-z]+)+)`
at the current position. The three keyword alternatives start with distinct
letters, so at most one can apply at a given position. -/
def matchNameAt (cs : List Char) : Option (List Char) :=
  match startsWithCI "patient".toList cs with
  | some rest => matchAfterKeyword rest
  | none =>
    match startsWithCI "for".toList cs with
    | some rest => matchAfterKeyword rest
    | none =>
      match startsWithCI "with".toList cs with
      | some rest => matchAfterKeyword rest
      | none => none

/-- Model of `re.search` for the fixed pattern: tries every position from
the left and returns the first captured group. -/
def searchName : List Char → Option (List Char)
  | [] => none
  | c :: cs =>
    match matchNameAt (c :: cs) with
    | some g => some g
    | none => searchName cs

/-- Patient-name extraction of `_process_with_functions`: three hard-coded
names matched as substrings of the lowercased request, then the regex
fallback on the original request. -/
def extract_patient_name (request : String) : Option String :=
  let rl := pyLower request
  if strContains "ravi kumar" rl then some "Ravi Kumar"
  else if strContains "priya sharma" rl then some "Priya Sharma"
  else if strContains "amit patel" rl then some "Amit Patel"
  else (searchName request.toList).map (fun g => String.mk g)

/-- The specialty vocabulary of `_process_with_functions`, paired with the
result of Python's `str.title()` on each entry. -/
def specialty_vocab : List (String × String) :=
  [("cardiology", "Cardiology"), ("neurology", "Neurology"),
   ("general medicine", "General Medicine")]

/-- Specialty extraction: first vocabulary entry found as a substring of
the lowercased request. -/
def extract_specialty (rl : String) : Option String :=
  (specialty_vocab.find? (fun e => strContains e.1 rl)).map (fun e => e.2)

/-- The per-step result payloads collected by `_process_with_functions`. -/
inductive StepResult where
  | patient (r : SearchPatientResult)
  | insurance (r : InsuranceResult)
  | slots (r : SlotsResult)
  | booking (r : BookResult)
deriving DecidableEq

/-- Python's `r["result"].get("success", False)` on a step payload. -/
def StepResult.success : StepResult → Bool
  | .patient r => r.success
  | .insurance r => r.success
  | .slots r => r.success
  | .booking r => r.success

/-- One entry of the `results` list: the step name and its payload. -/
structure StepRecord where
  step : String
  result : StepResult
deriving DecidableEq

/-- The response dictionary produced by `process_request`. Keys that a given
branch of the source omits are modelled as `false` / `none` / `[]`. -/
structure AgentResponse where
  success : Bool
  refused : Bool
  error : Option String
  results : List StepRecord
  summary : Option String
deriving DecidableEq

/-- A capability invocation (`FUNCTION_MAP[...](...)` call site), recorded
so the theorems can speak about which capabilities a request invokes. -/
inductive CapCall where
  | searchPatient (name : String)
  | checkInsurance (patient_id : String)
  | findSlots (specialty : String) (start_date : Option Nat) (days_ahead : Nat)
  | bookAppointment (patient_id slot_id specialty : String) (reason : Option String)
deriving DecidableEq

/-- Whether a trace entry is a `book_appointment` invocation. -/
def CapCall.isBook : CapCall → Bool
  | .bookAppointment _ _ _ _ => true
  | _ => false

/-- Whether a trace contains a `book_appointment` invocation. -/
def hasBookCall (trace : List CapCall) : Bool :=
  trace.any CapCall.isBook

/-- Summary clause for a successful patient search (`_generate_summary`). -/
def summary_for_patient (r : SearchPatientResult) : String :=
  let pid := match r.patient with
    | some fp => fp.id
    | none => "Unknown"
  let nm := match r.patient with
    | some fp =>
      match fp.name with
      | nmObj :: _ =>
        let given := String.intercalate " " nmObj.given
        if nmObj.family ≠ "" then given ++ " " ++ nmObj.family else given
      | [] => "Unknown"
    | none => "Unknown"
  "Found patient: " ++ nm.trim ++ " (ID: " ++ pid ++ ")"

/-- Summary clause for a successful insurance check (`_generate_summary`). -/
def summary_for_insurance (r : InsuranceResult) : String :=
  match r.eligibility with
  | some e =>
    "Insurance status: " ++ e.status ++ " - " ++ e.provider ++ " (Policy: " ++ e.policy_number ++ ")"
  | none => "Insurance status: Unknown - Unknown (Policy: N/A)"

/-- Summary clause for a successful slot search (`_generate_summary`). -/
def summary_for_slots (r : SlotsResult) : String :=
  "Found " ++ toString r.available_slots.length ++ " available " ++ r.specialty ++
    " appointment slots"

/-- Summary clause for a successful booking (`_generate_summary`). -/
def summary_for_booking (r : BookResult) : String :=
  match r.appointment with
  | some a =>
    "Appointment booked: " ++ a.appointment_id ++ " on " ++ toString a.date ++ " at " ++
      a.time ++ " with " ++ a.doctor
  | none => "Appointment booked: Unknown on Unknown at Unknown with Unknown"

/-- Source `_generate_summary`: one clause per successful step joined by
`" | "`, or the fixed fallback when no step succeeded. -/
def generate_summary (results : List StepRecord) : String :=
  let parts := results.filterMap (fun r =>
    match r.result with
    | StepResult.patient pr =>
      if r.step == "search_patient" && pr.success then some (summary_for_patient pr) else none
    | StepResult.insurance ir =>
      if r.step == "check_insurance_eligibility" && ir.success then
        some (summary_for_insurance ir)
      else none
    | StepResult.slots sr =>
      if r.step == "find_available_slots" && sr.success then some (summary_for_slots sr)
      else none
    | StepResult.booking br =>
      if r.step == "book_appointment" && br.success then some (summary_for_booking br)
      else none)
  if parts.isEmpty then "No actions completed" else String.intercalate " | " parts

/-- Final response assembly of `_process_with_functions`: overall success is
the conjunction of every recorded step's own success flag. -/
def compile_response (results : List StepRecord) : AgentResponse :=
  { success := results.all (fun r => r.result.success)
    refused := false
    error := none
    results := results
    summary := some (generate_summary results) }

/-- Step 1 of `_process_with_functions`: search for the patient when a name
was extracted; the patient id is resolved only from a successful search. -/
def step_one (st : ClinicalDataStore) (request : String) :
    List StepRecord × Option String × List CapCall :=
  match extract_patient_name request with
  | none => ([], none, [])
  | some nm =>
    let pr := search_patient st nm
    ([⟨"search_patient", StepResult.patient pr⟩],
     (if pr.success then pr.patient.map (fun p => p.id) else none),
     [CapCall.searchPatient nm])

/-- The resolved patient id after step 1. -/
def resolved_patient_id (st : ClinicalDataStore) (request : String) : Option String :=
  (step_one st request).2.1

/-- Whether the request text asks for an insurance/eligibility check. -/
def insurance_requested (rl : String) : Bool :=
  strContains "insurance" rl || strContains "eligibility" rl

/-- Whether step 2 aborts the whole request: insurance was requested, a
patient name was extracted, but no patient id was resolved. -/
def insurance_abort_triggered (st : ClinicalDataStore) (request : String) : Bool :=
  insurance_requested (pyLower request) && (resolved_patient_id st request).isNone &&
    (extract_patient_name request).isSome

/-- Date-window start preference of step 3: shifted one week ahead when the
text mentions `next week` (or just `next`). -/
def slots_start_date (today : Nat) (rl : String) : Option Nat :=
  if strContains "next week" rl || strContains "next" rl then some (today + 7) else none

/-- Date-window length of step 3: 14 days for `next week`, else the default 7. -/
def slots_days_ahead (rl : String) : Nat :=
  if strContains "next week" rl then 14 else 7

/-- The booking verbs of step 4. -/
def booking_keywords : List String := ["schedule", "book"]

/-- The search verbs of step 4. -/
def search_keywords : List String := ["find", "search", "available", "show", "list", "look", "get"]

/-- Step 4 classification: booking verbs present and no search verb. -/
def is_booking_request (rl : String) : Bool :=
  (booking_keywords.any (fun k => strContains k rl)) &&
    !(search_keywords.any (fun k => strContains k rl))

/-- The slot-search result of step 3, when a specialty was extracted. -/
def slots_step (st : ClinicalDataStore) (today : Nat) (rl : String)
    (specialty : Option String) : Option SlotsResult :=
  specialty.map (fun sp =>
    find_available_slots st today sp (slots_start_date today rl) (slots_days_ahead rl))

/-- The slot list step 4 may book from: step 3's result when it succeeded
(the list is empty when step 3 did not run or found nothing). -/
def bookable_slots (st : ClinicalDataStore) (today : Nat) (rl : String)
    (specialty : Option String) : List Slot :=
  match slots_step st today rl specialty with
  | some sr => if sr.success then sr.available_slots else []
  | none => []

/-- The booking reason of step 4: the fixed follow-up string when the text
mentions it, else unset (so the capability default applies). -/
def booking_reason (rl : String) : Option String :=
  if strContains "follow-up" rl || strContains "followup" rl then
    some "Follow-up appointment"
  else none

/-- Steps 3 and 4 of `_process_with_functions` plus the final response
assembly: slot search when a specialty was extracted, then the booking
branch with its three prerequisite aborts. -/
def steps_three_four (st : ClinicalDataStore) (today now : Nat) (rl : String)
    (patient_id : Option String) (specialty : Option String)
    (results : List StepRecord) (trace : List CapCall) :
    AgentResponse × ClinicalDataStore × List CapCall :=
  let sr? := slots_step st today rl specialty
  let results3 := match sr? with
    | some sr => results ++ [⟨"find_available_slots", StepResult.slots sr⟩]
    | none => results
  let trace3 := match specialty with
    | some sp => trace ++ [CapCall.findSlots sp (slots_start_date today rl) (slots_days_ahead rl)]
    | none => trace
  if is_booking_request rl then
    match patient_id with
    | none =>
      ({ success := false
         refused := false
         error := some "Cannot book appointment: Patient not found. Please provide patient name."
         results := results3
         summary := none }, st, trace3)
    | some pid =>
      match specialty with
      | none =>
        ({ success := false
           refused := false
           error := some "Cannot book appointment: Specialty not specified."
           results := results3
           summary := none }, st, trace3)
      | some sp =>
        match bookable_slots st today rl specialty with
        | [] =>
          ({ success := false
             refused := false
             error := some "Cannot book appointment: No available slots found."
             results := results3
             summary := none }, st, trace3)
        | slot :: _ =>
          let reason := booking_reason rl
          let br := book_appointment st now pid slot.slot_id sp reason
          let results4 := results3 ++ [⟨"book_appointment", StepResult.booking br.1⟩]
          (compile_response results4, br.2,
           trace3 ++ [CapCall.bookAppointment pid slot.slot_id sp reason])
  else
    (compile_response results3, st, trace3)

/-- Source `_process_with_functions`: extraction, the four conditional
steps with the step-2 abort, and the final response assembly. Returns the
response, the resulting store state and the capability-invocation trace. -/
def process_with_functions (st : ClinicalDataStore) (today now : Nat) (request : String) :
    AgentResponse × ClinicalDataStore × List CapCall :=
  let rl := pyLower request
  let sp := extract_specialty rl
  let s1 := step_one st request
  let results1 := s1.1
  let patient_id := s1.2.1
  let trace1 := s1.2.2
  if insurance_requested rl then
    match patient_id with
    | some pid =>
      let ir := check_insurance_eligibility st pid
      steps_three_four st today now rl patient_id sp
        (results1 ++ [⟨"check_insurance_eligibility", StepResult.insurance ir⟩])
        (trace1 ++ [CapCall.checkInsurance pid])
    | none =>
      match extract_patient_name request with
      | some nm =>
        ({ success := false
           refused := false
           error := some ("Patient '" ++ nm ++ "' not found. Cannot check insurance eligibility.")
           results := results1
           summary := none }, st, trace1)
      | none => steps_three_four st today now rl patient_id sp results1 trace1
  else
    steps_three_four st today now rl patient_id sp results1 trace1

/-- Source `process_request`: the safety gate first (refusal with the fixed
message, no capability invoked, store untouched), then the orchestrated
processing. -/
def process_request (st : ClinicalDataStore) (today now : Nat) (request : String) :
    AgentResponse × ClinicalDataStore × List CapCall :=
  match validate_request request with
  | some msg =>
    ({ success := false, refused := true, error := some msg, results := [], summary := none },
     st, [])
  | none => process_with_functions st today now request

/-- An invocation of one of the store's mutating operations or of one of
the capability-layer operations built on it (read-only operations do not
change the state and are included for completeness). -/
inductive StoreOp where
  | bookSlot (slot_id : String)
  | createAppointment (d : AppointmentData) (now : Nat)
  | searchPatient (name : String)
  | checkInsurance (patient_id : String)
  | findSlots (today : Nat) (specialty : String) (start_date : Option Nat) (days_ahead : Nat)
  | bookAppointment (now : Nat) (patient_id slot_id specialty : String) (reason : Option String)
deriving DecidableEq

/-- Whether the operation is a direct `create_appointment` call, i.e. one
not sequenced behind a successful `book_slot` by the booking capability. -/
def StoreOp.isRawCreate : StoreOp → Bool
  | .createAppointment _ _ => true
  | _ => false

/-- State transition of one operation. -/
def applyStoreOp (st : ClinicalDataStore) : StoreOp → ClinicalDataStore
  | .bookSlot sid => (book_slot st sid).2
  | .createAppointment d now => (create_appointment st d now).2
  | .searchPatient _ => st
  | .checkInsurance _ => st
  | .findSlots _ _ _ _ => st
  | .bookAppointment now pid sid sp reason => (book_appointment st now pid sid sp reason).2

/-- State reached after a sequence of operations. -/
def applyStoreOps (st : ClinicalDataStore) (ops : List StoreOp) : ClinicalDataStore :=
  ops.foldl applyStoreOp st

/-- All slot identifiers currently available, across every specialty. -/
def allSlotIds (av : List (String × List Slot)) : List String :=
  (av.map (fun e => e.2.map (fun s => s.slot_id))).flatten

/-- Each slot identifier appears in at most one specialty's available
collection, and at most once there. -/
def SlotIdsNodup (st : ClinicalDataStore) : Prop :=
  (allSlotIds st.available_slots).Nodup

/-- No slot identifier is simultaneously available and consumed by an
appointment. -/
def ExclusiveSlots (st : ClinicalDataStore) : Prop :=
  ∀ a ∈ st.appointments, a.slot_id ∉ allSlotIds st.available_slots

/-- The store invariant of the specification: slot-id uniqueness plus
available/booked exclusivity. -/
def StoreInv (st : ClinicalDataStore) : Prop :=
  SlotIdsNodup st ∧ ExclusiveSlots st

/-- Modelled from the spec and `ClinicalDataStore.__init__` (the generated
sample data depends on `random` and `datetime.now()`, so it is characterised
rather than replayed): the generator starts with no appointments and
assigns every slot id from the strictly increasing counter
`SLOT-{counter:04d}`, so the available slot ids are pairwise distinct. -/
def InitialShape (st : ClinicalDataStore) : Prop :=
  st.appointments = [] ∧ (allSlotIds st.available_slots).Nodup

/-- A small concrete store of the initial shape, used to evaluate the
theorems on closed inputs. -/
def samplePatient : Patient :=
  { patient_id := "PAT001"
    name := "Ravi Kumar"
    date_of_birth := "1985-03-15"
    phone := "+91-9876543210"
    email := "ravi.kumar@example.com"
    address := "100 Medical Street, Bangalore, Karnataka"
    medical_record_number := "MRN-001" }

/-- A concrete cardiology slot. -/
def sampleSlot1 : Slot :=
  { slot_id := "SLOT-0001", date := 101, time := "09:00",
    doctor := "Dr. Anil Reddy", duration_minutes := 30 }

/-- A second concrete cardiology slot. -/
def sampleSlot2 : Slot :=
  { slot_id := "SLOT-0002", date := 102, time := "14:30",
    doctor := "Dr. Meera Singh", duration_minutes := 30 }

/-- A concrete insurance record for the sample patient. -/
def sampleInsurance : Insurance :=
  { patient_id := "PAT001"
    insurance_provider := "MediCare Insurance"
    policy_number := "POL-123456"
    coverage_type := "Comprehensive"
    eligibility_status := "Active"
    copay := 500
    valid_until := "2027-01-01" }

/-- The sample store: one patient with insurance, two cardiology slots, an
empty neurology collection, no appointments. -/
def sampleStore : ClinicalDataStore :=
  { patients := [samplePatient]
    insurance := [sampleInsurance]
    appointments := []
    available_slots := [("Cardiology", [sampleSlot1, sampleSlot2]), ("Neurology", [])]
    appointment_counter := 1 }

theorem spanChars_length (p : Char → Bool) (l : List Char) :
    (spanChars p l).1.length + (spanChars p l).2.length = l.length := by
  induction l with
  | nil => rfl
  | cons c cs ih =>
    rw [show spanChars p (c :: cs) =
          if p c then (c :: (spanChars p cs).1, (spanChars p cs).2)
          else ([], c :: cs) from rfl]
    by_cases hpc : p c = true
    · rw [if_pos hpc]
      simp only [List.length_cons]
      omega
    · rw [if_neg hpc]
      simp

theorem matchTailF_nil (fuel : Nat) : matchTailF fuel [] = ([], []) := by
  cases fuel <;> rfl

/-- Any iteration bound of at least the input length computes the same
greedy match: each iteration consumes at least three characters. -/
theorem matchTailF_fuel_irrelevant :
    ∀ (n : Nat) (cs : List Char) (f1 f2 : Nat),
      cs.length ≤ n → cs.length ≤ f1 → cs.length ≤ f2 →
      matchTailF f1 cs = matchTailF f2 cs := by
  intro n
  induction n with
  | zero =>
    intro cs f1 f2 hn _ _
    have : cs = [] := List.length_eq_zero.mp (Nat.le_zero.mp hn)
    subst this
    rw [matchTailF_nil, matchTailF_nil]
  | succ n ih =>
    intro cs f1 f2 hn h1 h2
    cases cs with
    | nil => rw [matchTailF_nil, matchTailF_nil]
    | cons c cs' =>
      cases f1 with
      | zero => simp at h1
      | succ g1 =>
        cases f2 with
        | zero => simp at h2
        | succ g2 =>
          show (let sp1 := spanChars pyIsSpace (c :: cs')
                if sp1.1.isEmpty then ([], c :: cs')
                else
                  let w1 := spanChars isAsciiLetter sp1.2
                  if w1.1.length < 2 then ([], c :: cs')
                  else
                    let m := matchTailF g1 w1.2
                    (sp1.1 ++ w1.1 ++ m.1, m.2)) =
               (let sp1 := spanChars pyIsSpace (c :: cs')
                if sp1.1.isEmpty then ([], c :: cs')
                else
                  let w1 := spanChars isAsciiLetter sp1.2
                  if w1.1.length < 2 then ([], c :: cs')
                  else
                    let m := matchTailF g2 w1.2
                    (sp1.1 ++ w1.1 ++ m.1, m.2))
          simp only
          by_cases hsp : (spanChars pyIsSpace (c :: cs')).1.isEmpty = true
          · rw [if_pos hsp, if_pos hsp]
          · rw [if_neg hsp, if_neg hsp]
            by_cases hw : (spanChars isAsciiLetter (spanChars pyIsSpace (c :: cs')).2).1.length < 2
            · rw [if_pos hw, if_pos hw]
            · rw [if_neg hw, if_neg hw]
              have hlen1 := spanChars_length pyIsSpace (c :: cs')
              have hlen2 := spanChars_length isAsciiLetter (spanChars pyIsSpace (c :: cs')).2
              have hsp1 : 0 < (spanChars pyIsSpace (c :: cs')).1.length := by
                cases hx : (spanChars pyIsSpace (c :: cs')).1 with
                | nil => rw [hx] at hsp; simp at hsp
                | cons a as => simp [hx]
              simp only [List.length_cons] at hlen1 hn h1 h2
              have hrec := ih (spanChars isAsciiLetter (spanChars pyIsSpace (c :: cs')).2).2
                g1 g2 (by omega) (by omega) (by omega)
              rw [hrec]

theorem removeFirstSlot_eq_none (sid : String) (l : List Slot) :
    removeFirstSlot sid l = none ↔ ∀ s ∈ l, s.slot_id ≠ sid := by
  induction l with
  | nil => simp [removeFirstSlot]
  | cons s rest ih =>
    by_cases h : s.slot_id = sid
    · simp [removeFirstSlot, h]
    · simp [removeFirstSlot, h, ih]

theorem removeFirstSlot_eq_some (sid : String) :
    ∀ (l l2 : List Slot), removeFirstSlot sid l = some l2 →
      ∃ pre s post, l = pre ++ s :: post ∧ s.slot_id = sid ∧ l2 = pre ++ post ∧
        ∀ t ∈ pre, t.slot_id ≠ sid := by
  intro l
  induction l with
  | nil => intro l2 h; simp [removeFirstSlot] at h
  | cons s rest ih =>
    intro l2 h
    by_cases hs : s.slot_id = sid
    · simp only [removeFirstSlot, beq_iff_eq, if_pos hs, Option.some.injEq] at h
      exact ⟨[], s, rest, by simp, hs, by simp [← h], by simp⟩
    · simp only [removeFirstSlot, beq_iff_eq, if_neg hs] at h
      cases hr : removeFirstSlot sid rest with
      | none => rw [hr] at h; simp at h
      | some r2 =>
        rw [hr] at h
        rw [show (some r2).map (fun r => s :: r) = some (s :: r2) from rfl] at h
        injection h with h
        obtain ⟨pre, s2, post, hl, hsid, hl2, hpre⟩ := ih r2 hr
        refine ⟨s :: pre, s2, post, by simp [hl], hsid, by simp [← h, hl2], ?_⟩
        intro t ht
        rcases List.mem_cons.mp ht with h1 | h1
        · subst h1; exact hs
        · exact hpre t h1

theorem bookSlotAux_eq_none (sid : String) :
    ∀ av, bookSlotAux sid av = none ↔ ∀ e ∈ av, removeFirstSlot sid e.2 = none := by
  intro av
  induction av with
  | nil => simp [bookSlotAux]
  | cons e rest ih =>
    obtain ⟨sp, slots⟩ := e
    cases hr : removeFirstSlot sid slots with
    | some slots2 => simp [bookSlotAux, hr]
    | none => simp [bookSlotAux, hr, ih]

theorem bookSlotAux_eq_some (sid : String) :
    ∀ av av2, bookSlotAux sid av = some av2 →
      ∃ pre sp slots slots2 post,
        av = pre ++ (sp, slots) :: post ∧
        removeFirstSlot sid slots = some slots2 ∧
        av2 = pre ++ (sp, slots2) :: post ∧
        ∀ e ∈ pre, removeFirstSlot sid e.2 = none := by
  intro av
  induction av with
  | nil => intro av2 h; simp [bookSlotAux] at h
  | cons e rest ih =>
    obtain ⟨sp, slots⟩ := e
    intro av2 h
    cases hr : removeFirstSlot sid slots with
    | some slots2 =>
      simp only [bookSlotAux, hr, Option.some.injEq] at h
      exact ⟨[], sp, slots, slots2, rest, by simp, hr, by simp [← h], by simp⟩
    | none =>
      simp only [bookSlotAux, hr] at h
      cases hb : bookSlotAux sid rest with
      | none => rw [hb] at h; simp at h
      | some r2 =>
        rw [hb] at h
        rw [show (some r2).map (fun r => (sp, slots) :: r) = some ((sp, slots) :: r2) from rfl] at h
        injection h with h
        obtain ⟨pre, sp2, slots3, slots4, post, hl, hrm, hl2, hpre⟩ := ih r2 hb
        refine ⟨(sp, slots) :: pre, sp2, slots3, slots4, post, by simp [hl], hrm,
          by simp [← h, hl2], ?_⟩
        intro t ht
        rcases List.mem_cons.mp ht with h1 | h1
        · subst h1; exact hr
        · exact hpre t h1

theorem allSlotIds_nil : allSlotIds [] = [] := rfl

theorem allSlotIds_cons (e : String × List Slot) (av : List (String × List Slot)) :
    allSlotIds (e :: av) = e.2.map (fun s => s.slot_id) ++ allSlotIds av := by
  simp [allSlotIds]

theorem allSlotIds_append (a b : List (String × List Slot)) :
    allSlotIds (a ++ b) = allSlotIds a ++ allSlotIds b := by
  simp [allSlotIds]

theorem removeFirstSlot_ids_sublist {sid : String} {l l2 : List Slot}
    (h : removeFirstSlot sid l = some l2) :
    List.Sublist (l2.map (fun s => s.slot_id)) (l.map (fun s => s.slot_id)) := by
  obtain ⟨pre, s, post, hl, _, hl2, _⟩ := removeFirstSlot_eq_some sid l l2 h
  subst hl; subst hl2
  simp only [List.map_append, List.map_cons]
  exact (List.Sublist.refl _).append (List.sublist_cons_self _ _)

theorem removeFirstSlot_not_mem {sid : String} {l l2 : List Slot}
    (h : removeFirstSlot sid l = some l2)
    (hnd : (l.map (fun s => s.slot_id)).Nodup) :
    sid ∉ l2.map (fun s => s.slot_id) := by
  obtain ⟨pre, s, post, hl, hsid, hl2, _⟩ := removeFirstSlot_eq_some sid l l2 h
  subst hl; subst hl2; subst hsid
  simp only [List.map_append, List.map_cons] at hnd ⊢
  rw [List.nodup_append] at hnd
  obtain ⟨_, hnd2, hdisj⟩ := hnd
  rw [List.nodup_cons] at hnd2
  intro hmem
  rcases List.mem_append.mp hmem with hin | hin
  · exact hdisj hin (List.mem_cons_self _ _)
  · exact hnd2.1 hin

theorem bookSlotAux_ids_sublist {sid : String} {av av2 : List (String × List Slot)}
    (h : bookSlotAux sid av = some av2) :
    List.Sublist (allSlotIds av2) (allSlotIds av) := by
  obtain ⟨pre, sp, slots, slots2, post, hl, hrm, hl2, _⟩ := bookSlotAux_eq_some sid av av2 h
  subst hl; subst hl2
  simp only [allSlotIds_append, allSlotIds_cons]
  exact (List.Sublist.refl _).append
    ((removeFirstSlot_ids_sublist hrm).append (List.Sublist.refl _))

theorem bookSlotAux_not_mem {sid : String} {av av2 : List (String × List Slot)}
    (h : bookSlotAux sid av = some av2)
    (hnd : (allSlotIds av).Nodup) :
    sid ∉ allSlotIds av2 := by
  obtain ⟨pre, sp, slots, slots2, post, hl, hrm, hl2, _⟩ := bookSlotAux_eq_some sid av av2 h
  subst hl; subst hl2
  simp only [allSlotIds_append, allSlotIds_cons] at hnd ⊢
  rw [List.nodup_append] at hnd
  obtain ⟨_, hnd2, hdisj⟩ := hnd
  rw [List.nodup_append] at hnd2
  obtain ⟨hndS, _, hdisj2⟩ := hnd2
  have hmemS : sid ∈ slots.map (fun s => s.slot_id) := by
    obtain ⟨p2, s, p3, hl3, hsid, _, _⟩ := removeFirstSlot_eq_some sid slots slots2 hrm
    subst hl3; subst hsid; simp
  have hS2 : sid ∉ slots2.map (fun s => s.slot_id) := removeFirstSlot_not_mem hrm hndS
  intro hmem
  rcases List.mem_append.mp hmem with hin | hin
  · exact hdisj hin (List.mem_append.mpr (Or.inl hmemS))
  · rcases List.mem_append.mp hin with hin2 | hin2
    · exact hS2 hin2
    · exact hdisj2 hmemS hin2

theorem mem_allSlotIds_of_mem {av : List (String × List Slot)}
    {e : String × List Slot} {s : Slot}
    (he : e ∈ av) (hs : s ∈ e.2) : s.slot_id ∈ allSlotIds av := by
  unfold allSlotIds
  exact List.mem_flatten.mpr
    ⟨e.2.map (fun t => t.slot_id), List.mem_map_of_mem _ he, List.mem_map_of_mem _ hs⟩

theorem book_slot_ids_sublist (st : ClinicalDataStore) (sid : String) :
    List.Sublist (allSlotIds (book_slot st sid).2.available_slots)
      (allSlotIds st.available_slots) := by
  unfold book_slot
  cases h : bookSlotAux sid st.available_slots with
  | none => exact List.Sublist.refl _
  | some av2 => exact bookSlotAux_ids_sublist h

theorem book_slot_false {st : ClinicalDataStore} {sid : String}
    (h : (book_slot st sid).1 = false) : (book_slot st sid).2 = st := by
  unfold book_slot at h ⊢
  cases hb : bookSlotAux sid st.available_slots with
  | none => rfl
  | some av2 => rw [hb] at h; simp at h

theorem book_slot_true {st : ClinicalDataStore} {sid : String}
    (h : (book_slot st sid).1 = true) :
    ∃ av2, bookSlotAux sid st.available_slots = some av2 ∧
      (book_slot st sid).2 = { st with available_slots := av2 } := by
  unfold book_slot at h ⊢
  cases hb : bookSlotAux sid st.available_slots with
  | none => rw [hb] at h; simp at h
  | some av2 => exact ⟨av2, rfl, rfl⟩

theorem mem_get_available_slots_ids {st : ClinicalDataStore} {sp : String} {s : Slot}
    (hs : s ∈ get_available_slots st sp none none) :
    s.slot_id ∈ allSlotIds st.available_slots := by
  unfold get_available_slots at hs
  simp only [Option.isSome_none, Bool.or_self, Bool.false_eq_true, if_false] at hs
  cases hf : st.available_slots.find? (fun e => e.1 == sp) with
  | none => rw [hf] at hs; simp at hs
  | some e =>
    rw [hf] at hs
    simp only [Option.map_some', Option.getD_some] at hs
    exact mem_allSlotIds_of_mem (List.mem_of_find?_eq_some hf) hs

theorem mem_get_available_slots_window {st : ClinicalDataStore} {sp : String}
    {a b : Nat} {s : Slot}
    (hs : s ∈ get_available_slots st sp (some a) (some b)) :
    s ∈ get_available_slots st sp none none := by
  unfold get_available_slots at hs ⊢
  simp only [Option.isSome_some, Bool.or_self, if_true, Option.isSome_none,
    Bool.false_eq_true, if_false] at hs ⊢
  exact List.mem_of_mem_filter hs

theorem find?_slot_of_nodup {l : List Slot} {slot : Slot}
    (hnd : (l.map (fun s => s.slot_id)).Nodup) (hmem : slot ∈ l) :
    l.find? (fun s => s.slot_id == slot.slot_id) = some slot := by
  induction l with
  | nil => simp at hmem
  | cons a rest ih =>
    rcases List.mem_cons.mp hmem with h | h
    · subst h
      exact List.find?_cons_of_pos _ (by simp)
    · simp only [List.map_cons, List.nodup_cons] at hnd
      have hne : ¬(a.slot_id == slot.slot_id) = true := by
        simp only [beq_iff_eq]
        intro he
        exact hnd.1 (he ▸ List.mem_map_of_mem _ h)
      rw [show List.find? (fun s => s.slot_id == slot.slot_id) (a :: rest) =
            List.find? (fun s => s.slot_id == slot.slot_id) rest from
          List.find?_cons_of_neg _ hne]
      exact ih hnd.2 h

theorem book_appointment_fail {st : ClinicalDataStore} {now : Nat}
    {pid sid sp : String} {reason : Option String}
    (h : (book_appointment st now pid sid sp reason).1.success = false) :
    (book_appointment st now pid sid sp reason).2 = st := by
  cases hp : get_patient_by_id st pid with
  | none => simp [book_appointment, hp]
  | some patient =>
    cases hf : (get_available_slots st sp none none).find? (fun s => s.slot_id == sid) with
    | none => simp [book_appointment, hp, hf]
    | some slot =>
      cases hb : (book_slot st sid).1 with
      | false => simp [book_appointment, hp, hf, hb, book_slot_false hb]
      | true => simp [book_appointment, hp, hf, hb] at h

theorem book_appointment_success {st : ClinicalDataStore} {now : Nat}
    {pid sid sp : String} {reason : Option String}
    (h : (book_appointment st now pid sid sp reason).1.success = true) :
    ∃ patient slot av2,
      get_patient_by_id st pid = some patient ∧
      (get_available_slots st sp none none).find? (fun s => s.slot_id == sid) = some slot ∧
      bookSlotAux sid st.available_slots = some av2 ∧
      book_appointment st now pid sid sp reason =
        ({ success := true
           error := none
           appointment := some
             { appointment_id := "APT-" ++ pad4 st.appointment_counter
               created_at := now
               patient_id := pid
               patient_name := patient.name
               slot_id := sid
               specialty := sp
               date := slot.date
               time := slot.time
               doctor := slot.doctor
               duration_minutes := slot.duration_minutes
               reason := reason_or_default reason
               status := "Confirmed" } },
         { st with
             available_slots := av2
             appointments := st.appointments ++
               [{ appointment_id := "APT-" ++ pad4 st.appointment_counter
                  created_at := now
                  patient_id := pid
                  patient_name := patient.name
                  slot_id := sid
                  specialty := sp
                  date := slot.date
                  time := slot.time
                  doctor := slot.doctor
                  duration_minutes := slot.duration_minutes
                  reason := reason_or_default reason
                  status := "Confirmed" }]
             appointment_counter := st.appointment_counter + 1 }) := by
  cases hp : get_patient_by_id st pid with
  | none => simp [book_appointment, hp] at h
  | some patient =>
    cases hf : (get_available_slots st sp none none).find? (fun s => s.slot_id == sid) with
    | none => simp [book_appointment, hp, hf] at h
    | some slot =>
      cases hb : (book_slot st sid).1 with
      | false => simp [book_appointment, hp, hf, hb] at h
      | true =>
        obtain ⟨av2, hbs, hbs2⟩ := book_slot_true hb
        refine ⟨patient, slot, av2, rfl, rfl, hbs, ?_⟩
        simp [book_appointment, hp, hf, hb, hbs2, create_appointment]

theorem book_appointment_stale {st : ClinicalDataStore} {now : Nat}
    {pid sid sp : String} {reason : Option String}
    (habs : sid ∉ allSlotIds st.available_slots) :
    (book_appointment st now pid sid sp reason).1.success = false ∧
    (book_appointment st now pid sid sp reason).2 = st ∧
    (get_patient_by_id st pid ≠ none →
      (book_appointment st now pid sid sp reason).1.error =
        some ("Slot " ++ sid ++ " not available for specialty " ++ sp)) := by
  cases hp : get_patient_by_id st pid with
  | none => refine ⟨?_, ?_, ?_⟩ <;> simp [book_appointment, hp]
  | some patient =>
    have hf : (get_available_slots st sp none none).find? (fun s => s.slot_id == sid) = none := by
      rw [List.find?_eq_none]
      intro x hx
      simp only [beq_iff_eq]
      intro he
      exact habs (he ▸ mem_get_available_slots_ids hx)
    refine ⟨?_, ?_, ?_⟩ <;> simp [book_appointment, hp, hf]

theorem applyStoreOp_ids_sublist (st : ClinicalDataStore) (op : StoreOp) :
    List.Sublist (allSlotIds (applyStoreOp st op).available_slots)
      (allSlotIds st.available_slots) := by
  cases op with
  | bookSlot sid => exact book_slot_ids_sublist st sid
  | createAppointment d now => exact List.Sublist.refl _
  | searchPatient n => exact List.Sublist.refl _
  | checkInsurance p => exact List.Sublist.refl _
  | findSlots a b c d => exact List.Sublist.refl _
  | bookAppointment now pid sid sp reason =>
    cases hs : (book_appointment st now pid sid sp reason).1.success with
    | false =>
      show List.Sublist
        (allSlotIds (book_appointment st now pid sid sp reason).2.available_slots) _
      rw [book_appointment_fail hs]
    | true =>
      obtain ⟨patient, slot, av2, hp, hf, hb, heq⟩ := book_appointment_success hs
      show List.Sublist
        (allSlotIds (book_appointment st now pid sid sp reason).2.available_slots) _
      rw [heq]
      exact bookSlotAux_ids_sublist hb

theorem applyStoreOps_ids_sublist (st : ClinicalDataStore) (ops : List StoreOp) :
    List.Sublist (allSlotIds (applyStoreOps st ops).available_slots)
      (allSlotIds st.available_slots) := by
  induction ops generalizing st with
  | nil => exact List.Sublist.refl _
  | cons op rest ih =>
    exact (ih (applyStoreOp st op)).trans (applyStoreOp_ids_sublist st op)

theorem not_mem_ids_applyStoreOps {sid : String} {st : ClinicalDataStore}
    (h : sid ∉ allSlotIds st.available_slots) (ops : List StoreOp) :
    sid ∉ allSlotIds (applyStoreOps st ops).available_slots :=
  fun hm => h ((applyStoreOps_ids_sublist st ops).mem hm)

theorem nodup_ids_applyStoreOps {st : ClinicalDataStore}
    (h : SlotIdsNodup st) (ops : List StoreOp) :
    SlotIdsNodup (applyStoreOps st ops) :=
  h.sublist (applyStoreOps_ids_sublist st ops)

theorem book_slot_appointments (st : ClinicalDataStore) (sid : String) :
    (book_slot st sid).2.appointments = st.appointments := by
  unfold book_slot
  cases bookSlotAux sid st.available_slots <;> rfl

theorem exclusive_applyStoreOp {st : ClinicalDataStore}
    (hnd : SlotIdsNodup st) (hex : ExclusiveSlots st)
    (op : StoreOp) (hop : op.isRawCreate = false) :
    ExclusiveSlots (applyStoreOp st op) := by
  cases op with
  | createAppointment d now => simp [StoreOp.isRawCreate] at hop
  | searchPatient n => exact hex
  | checkInsurance p => exact hex
  | findSlots a b c d => exact hex
  | bookSlot sid =>
    intro a ha hm
    rw [show (applyStoreOp st (StoreOp.bookSlot sid)).appointments =
          st.appointments from book_slot_appointments st sid] at ha
    exact hex a ha ((book_slot_ids_sublist st sid).mem hm)
  | bookAppointment now pid sid sp reason =>
    cases hs : (book_appointment st now pid sid sp reason).1.success with
    | false =>
      show ExclusiveSlots (book_appointment st now pid sid sp reason).2
      rw [book_appointment_fail hs]
      exact hex
    | true =>
      obtain ⟨patient, slot, av2, hp, hf, hb, heq⟩ := book_appointment_success hs
      show ExclusiveSlots (book_appointment st now pid sid sp reason).2
      rw [heq]
      intro a ha hm
      rcases List.mem_append.mp ha with h1 | h1
      · exact hex a h1 ((bookSlotAux_ids_sublist hb).mem hm)
      · have h2 : a.slot_id = sid := by
          rcases List.mem_singleton.mp h1 with rfl
          rfl
        rw [h2] at hm
        exact bookSlotAux_not_mem hb hnd hm

theorem storeInv_applyStoreOp {st : ClinicalDataStore}
    (h : StoreInv st) (op : StoreOp) (hop : op.isRawCreate = false) :
    StoreInv (applyStoreOp st op) :=
  ⟨h.1.sublist (applyStoreOp_ids_sublist st op), exclusive_applyStoreOp h.1 h.2 op hop⟩

theorem storeInv_applyStoreOps {st : ClinicalDataStore}
    (h : StoreInv st) (ops : List StoreOp)
    (hops : ∀ op ∈ ops, op.isRawCreate = false) :
    StoreInv (applyStoreOps st ops) := by
  induction ops generalizing st with
  | nil => exact h
  | cons op rest ih =>
    exact ih (storeInv_applyStoreOp h op (hops op (List.mem_cons_self _ _)))
      (fun o ho => hops o (List.mem_cons_of_mem _ ho))

theorem storeInv_of_initialShape {st : ClinicalDataStore}
    (h : InitialShape st) : StoreInv st := by
  refine ⟨h.2, ?_⟩
  intro a ha
  rw [h.1] at ha
  simp at ha

/-- C3: for every instruction text containing a clinical-judgment keyword
(the source's medical-advice keyword list), `process_request` returns a
refusal (`refused = true`, `success = false`) with the fixed medical-advice
message, invokes no capability function (empty invocation trace, empty
results), and leaves the store unchanged. -/
theorem C3_medical_refusal (st : ClinicalDataStore) (today now : Nat) (request : String)
    (h : medical_advice_keywords.any (fun k => strContains k (pyLower request)) = true) :
    process_request st today now request =
      ({ success := false, refused := true, error := some medical_advice_message,
         results := [], summary := none }, st, []) := by
  simp [process_request, validate_request, h]

/-- Witness for C3 at a concrete instruction containing `diagnosis`. -/
theorem C3_medical_refusal_witness :
    medical_advice_keywords.any
      (fun k => strContains k (pyLower "What is the diagnosis of Ravi Kumar")) = true ∧
    process_request sampleStore 100 5 "What is the diagnosis of Ravi Kumar" =
      ({ success := false, refused := true, error := some medical_advice_message,
         results := [], summary := none }, sampleStore, []) :=
  ⟨by decide, C3_medical_refusal sampleStore 100 5 _ (by decide)⟩

/-- C4 counterexample: the claim asserts that every instruction containing a
destructive keyword and no `cancel` substring is refused with the fixed
destructive-action message, but the medical-advice check runs first, so
`"Please delete the diagnosis"` (destructive keyword `delete`, no `cancel`)
is refused with the medical-advice message instead. -/
theorem C4_counterexample :
    strContains "delete" (pyLower "Please delete the diagnosis") = true ∧
    strContains "cancel" (pyLower "Please delete the diagnosis") = false ∧
    (process_request sampleStore 0 0 "Please delete the diagnosis").1.refused = true ∧
    (process_request sampleStore 0 0 "Please delete the diagnosis").1.error =
      some medical_advice_message ∧
    medical_advice_message ≠ destructive_action_message := by
  refine ⟨by decide, by decide, by decide, by decide, by decide⟩

/-- C4 as amended: for every instruction text containing a destructive
keyword, whose lowercased text contains no `cancel` substring **and no
medical-advice keyword**, `process_request` returns `refused = true` with
the fixed destructive-action message, invokes no capability, and leaves the
store unchanged. -/
theorem C4_destructive_refusal (st : ClinicalDataStore) (today now : Nat) (request : String)
    (hmed : medical_advice_keywords.any (fun k => strContains k (pyLower request)) = false)
    (hdes : unsafe_keywords.any (fun k => strContains k (pyLower request)) = true)
    (hcancel : strContains "cancel" (pyLower request) = false) :
    process_request st today now request =
      ({ success := false, refused := true, error := some destructive_action_message,
         results := [], summary := none }, st, []) := by
  simp [process_request, validate_request, hmed, hdes, hcancel]

/-- Witness for the amended C4 at a concrete destructive instruction. -/
theorem C4_destructive_refusal_witness :
    medical_advice_keywords.any
      (fun k => strContains k (pyLower "Please delete old records")) = false ∧
    unsafe_keywords.any (fun k => strContains k (pyLower "Please delete old records")) = true ∧
    strContains "cancel" (pyLower "Please delete old records") = false ∧
    process_request sampleStore 100 5 "Please delete old records" =
      ({ success := false, refused := true, error := some destructive_action_message,
         results := [], summary := none }, sampleStore, []) :=
  ⟨by decide, by decide, by decide,
    C4_destructive_refusal sampleStore 100 5 _ (by decide) (by decide) (by decide)⟩

theorem not_lt_decide_eq (a b : Nat) : (!decide (b < a)) = decide (a ≤ b) := by
  by_cases h : b < a
  · simp [h, Nat.not_le.mpr h]
  · simp [h, Nat.not_lt.mp h]

/-- C8: for every specialty, optional start date and days-ahead count,
`find_available_slots` always succeeds, resolves the window start to the
given start date or to today when omitted, sets the window end to start
plus `days_ahead`, returns exactly the specialty's available slots whose
dates lie within the inclusive window, reports their number as `count`,
and yields an empty list with count 0 (not a failure) for a specialty
unknown to the store. -/
theorem C8_find_available_slots (st : ClinicalDataStore) (today : Nat) (specialty : String)
    (start_date : Option Nat) (days_ahead : Nat) :
    (find_available_slots st today specialty start_date days_ahead).success = true ∧
    (find_available_slots st today specialty start_date days_ahead).search_start =
      start_date.getD today ∧
    (find_available_slots st today specialty start_date days_ahead).search_end =
      start_date.getD today + days_ahead ∧
    (find_available_slots st today specialty start_date days_ahead).available_slots =
      (get_available_slots st specialty none none).filter
        (fun s => decide (start_date.getD today ≤ s.date) &&
                  decide (s.date ≤ start_date.getD today + days_ahead)) ∧
    (find_available_slots st today specialty start_date days_ahead).count =
      (find_available_slots st today specialty start_date days_ahead).available_slots.length ∧
    (st.available_slots.find? (fun e => e.1 == specialty) = none →
      (find_available_slots st today specialty start_date days_ahead).available_slots = [] ∧
      (find_available_slots st today specialty start_date days_ahead).count = 0) := by
  refine ⟨rfl, rfl, rfl, ?_, rfl, ?_⟩
  · show get_available_slots st specialty (some (start_date.getD today))
        (some (start_date.getD today + days_ahead)) = _
    unfold get_available_slots
    simp only [Option.isSome_some, Bool.or_self, if_true, Option.isSome_none,
      Bool.false_eq_true, if_false]
    exact List.filter_congr (fun x _ => by rw [not_lt_decide_eq, not_lt_decide_eq])
  · intro h
    constructor
    · show get_available_slots st specialty (some (start_date.getD today))
          (some (start_date.getD today + days_ahead)) = _
      unfold get_available_slots
      simp [h]
    · show (get_available_slots st specialty (some (start_date.getD today))
          (some (start_date.getD today + days_ahead))).length = 0
      unfold get_available_slots
      simp [h]

/-- Witness for C8: a known specialty succeeds, an unknown one yields count 0. -/
theorem C8_find_available_slots_witness :
    (find_available_slots sampleStore 100 "Cardiology" none 7).success = true ∧
    (find_available_slots sampleStore 100 "Podiatry" none 7).count = 0 :=
  ⟨(C8_find_available_slots sampleStore 100 "Cardiology" none 7).1,
   ((C8_find_available_slots sampleStore 100 "Podiatry" none 7).2.2.2.2.2 (by decide)).2⟩

theorem process_request_allowed {request : String} (h : validate_request request = none)
    (st : ClinicalDataStore) (today now : Nat) :
    process_request st today now request = process_with_functions st today now request := by
  simp [process_request, h]

theorem hasBook_step_one (st : ClinicalDataStore) (request : String) :
    hasBookCall (step_one st request).2.2 = false := by
  unfold step_one
  cases extract_patient_name request <;> simp [hasBookCall, CapCall.isBook]

/-- C10: an allowed instruction from which no patient name, no specialty and
no booking classification is extracted executes no capability and returns
`success = true` (the conjunction over an empty step list) with an empty
results list and the fixed summary `No actions completed`; the store is
unchanged. -/
theorem C10_no_action_success (st : ClinicalDataStore) (today now : Nat) (request : String)
    (hgate : validate_request request = none)
    (hname : extract_patient_name request = none)
    (hsp : extract_specialty (pyLower request) = none)
    (hbook : is_booking_request (pyLower request) = false) :
    process_request st today now request =
      ({ success := true, refused := false, error := none, results := [],
         summary := some "No actions completed" }, st, []) := by
  rw [process_request_allowed hgate]
  have hstep : step_one st request = ([], none, []) := by simp [step_one, hname]
  by_cases hins : insurance_requested (pyLower request) = true
  · simp [process_with_functions, hstep, hins, hname, steps_three_four, slots_step, hsp,
      hbook, compile_response, generate_summary]
  · simp [process_with_functions, hstep, hins, hname, steps_three_four, slots_step, hsp,
      hbook, compile_response, generate_summary]

/-- Witness for C10 at a concrete inert instruction. -/
theorem C10_no_action_success_witness :
    validate_request "hello there" = none ∧
    extract_patient_name "hello there" = none ∧
    extract_specialty (pyLower "hello there") = none ∧
    is_booking_request (pyLower "hello there") = false ∧
    process_request sampleStore 100 5 "hello there" =
      ({ success := true, refused := false, error := none, results := [],
         summary := some "No actions completed" }, sampleStore, []) :=
  ⟨by decide, by decide, by decide, by decide,
    C10_no_action_success sampleStore 100 5 _ (by decide) (by decide) (by decide) (by decide)⟩

/-- C6: when an allowed instruction mentions insurance/eligibility, a
patient name was extracted, and the patient search fails, `process_request`
aborts immediately with `success = false` and the explicit patient-not-found
insurance error, carrying only the search step executed so far; the store is
unchanged and no capability beyond the patient search runs. -/
theorem C6_insurance_abort (st : ClinicalDataStore) (today now : Nat)
    (request nm : String)
    (hgate : validate_request request = none)
    (hins : insurance_requested (pyLower request) = true)
    (hname : extract_patient_name request = some nm)
    (hfail : (search_patient st nm).success = false) :
    process_request st today now request =
      ({ success := false, refused := false,
         error := some ("Patient '" ++ nm ++ "' not found. Cannot check insurance eligibility."),
         results := [⟨"search_patient", StepResult.patient (search_patient st nm)⟩],
         summary := none }, st, [CapCall.searchPatient nm]) := by
  rw [process_request_allowed hgate]
  have hstep : step_one st request =
      ([⟨"search_patient", StepResult.patient (search_patient st nm)⟩], none,
       [CapCall.searchPatient nm]) := by
    simp [step_one, hname, hfail]
  simp [process_with_functions, hstep, hins, hname]

/-- Witness for C6: the scenario-B instruction with an unknown patient. -/
theorem C6_insurance_abort_witness :
    validate_request "Check insurance eligibility for patient Unknown Person" = none ∧
    insurance_requested
      (pyLower "Check insurance eligibility for patient Unknown Person") = true ∧
    extract_patient_name "Check insurance eligibility for patient Unknown Person" =
      some "patient Unknown Person" ∧
    (search_patient sampleStore "patient Unknown Person").success = false ∧
    process_request sampleStore 100 5 "Check insurance eligibility for patient Unknown Person" =
      ({ success := false, refused := false,
         error := some ("Patient '" ++ "patient Unknown Person" ++
           "' not found. Cannot check insurance eligibility."),
         results := [⟨"search_patient",
           StepResult.patient (search_patient sampleStore "patient Unknown Person")⟩],
         summary := none }, sampleStore, [CapCall.searchPatient "patient Unknown Person"]) :=
  ⟨by decide, by decide, by decide, by decide,
    C6_insurance_abort sampleStore 100 5 _ "patient Unknown Person"
      (by decide) (by decide) (by decide) (by decide)⟩

theorem steps_three_four_store_not_booking {rl : String}
    (h : is_booking_request rl = false) (st : ClinicalDataStore) (today now : Nat)
    (patient_id : Option String) (specialty : Option String)
    (results : List StepRecord) (trace : List CapCall) :
    (steps_three_four st today now rl patient_id specialty results trace).2.1 = st := by
  unfold steps_three_four
  simp [h]

theorem steps_three_four_trace_not_booking {rl : String}
    (h : is_booking_request rl = false) (st : ClinicalDataStore) (today now : Nat)
    (patient_id : Option String) (specialty : Option String)
    (results : List StepRecord) (trace : List CapCall) :
    hasBookCall (steps_three_four st today now rl patient_id specialty results trace).2.2 =
      hasBookCall trace := by
  unfold steps_three_four
  cases specialty <;> simp [h, hasBookCall, List.any_append, CapCall.isBook]


theorem steps_three_four_trace_mem (st : ClinicalDataStore) (today now : Nat)
    (rl : String) (patient_id : Option String) (specialty : Option String)
    (results : List StepRecord) (trace : List CapCall) (x : CapCall)
    (hx : x ∈ (steps_three_four st today now rl patient_id specialty results trace).2.2) :
    x ∈ trace ∨ (∃ sp sd da, x = CapCall.findSlots sp sd da) ∨
      (is_booking_request rl = true ∧
        ∃ p sid sp r, x = CapCall.bookAppointment p sid sp r) := by
  unfold steps_three_four at hx
  by_cases hbk : is_booking_request rl = true
  · rw [if_pos hbk] at hx
    cases patient_id with
    | none =>
      cases specialty with
      | none => exact Or.inl hx
      | some sp =>
        simp only [List.mem_append, List.mem_singleton] at hx
        rcases hx with hx | hx
        · exact Or.inl hx
        · exact Or.inr (Or.inl ⟨sp, _, _, hx⟩)
    | some pid =>
      cases specialty with
      | none => exact Or.inl hx
      | some sp =>
        cases hbl : bookable_slots st today rl (some sp) with
        | nil =>
          rw [hbl] at hx
          simp only [List.mem_append, List.mem_singleton] at hx
          rcases hx with hx | hx
          · exact Or.inl hx
          · exact Or.inr (Or.inl ⟨sp, _, _, hx⟩)
        | cons slot rest =>
          rw [hbl] at hx
          simp only [List.mem_append, List.mem_singleton] at hx
          rcases hx with (hx | hx) | hx
          · exact Or.inl hx
          · exact Or.inr (Or.inl ⟨sp, _, _, hx⟩)
          · exact Or.inr (Or.inr ⟨hbk, pid, slot.slot_id, sp, booking_reason rl, hx⟩)
  · rw [if_neg hbk] at hx
    cases specialty with
    | none => exact Or.inl hx
    | some sp =>
      simp only [List.mem_append, List.mem_singleton] at hx
      rcases hx with hx | hx
      · exact Or.inl hx
      · exact Or.inr (Or.inl ⟨sp, _, _, hx⟩)

theorem step_one_trace_mem (st : ClinicalDataStore) (request : String) (x : CapCall)
    (hx : x ∈ (step_one st request).2.2) : ∃ nm, x = CapCall.searchPatient nm := by
  unfold step_one at hx
  cases h : extract_patient_name request with
  | none => rw [h] at hx; simp at hx
  | some nm =>
    rw [h] at hx
    simp only [List.mem_singleton] at hx
    exact ⟨nm, hx⟩

theorem process_with_functions_book_imp (st : ClinicalDataStore) (today now : Nat)
    (request : String) (x : CapCall)
    (hx : x ∈ (process_with_functions st today now request).2.2)
    (hbx : CapCall.isBook x = true) :
    is_booking_request (pyLower request) = true := by
  have step34 : ∀ patient_id results trace2,
      (∀ y ∈ trace2, CapCall.isBook y = false) →
      x ∈ (steps_three_four st today now (pyLower request) patient_id
        (extract_specialty (pyLower request)) results trace2).2.2 →
      is_booking_request (pyLower request) = true := by
    intro patient_id results trace2 htr hmem
    rcases steps_three_four_trace_mem st today now (pyLower request) patient_id
      (extract_specialty (pyLower request)) results trace2 x hmem with h | h | h
    · rw [htr x h] at hbx; simp at hbx
    · obtain ⟨sp, sd, da, rfl⟩ := h
      simp [CapCall.isBook] at hbx
    · exact h.1
  have hstep1 : ∀ y ∈ (step_one st request).2.2, CapCall.isBook y = false := by
    intro y hy
    obtain ⟨nm, rfl⟩ := step_one_trace_mem st request y hy
    rfl
  unfold process_with_functions at hx
  by_cases hins : insurance_requested (pyLower request) = true
  · rw [if_pos hins] at hx
    cases hpid : (step_one st request).2.1 with
    | some pid =>
      rw [hpid] at hx
      refine step34 _ _ _ ?_ hx
      intro y hy
      rcases List.mem_append.mp hy with hy2 | hy2
      · exact hstep1 y hy2
      · rcases List.mem_singleton.mp hy2 with rfl
        rfl
    | none =>
      rw [hpid] at hx
      cases hnm : extract_patient_name request with
      | some nm =>
        rw [hnm] at hx
        rw [hstep1 x hx] at hbx
        simp at hbx
      | none =>
        rw [hnm] at hx
        exact step34 _ _ _ hstep1 hx
  · rw [if_neg hins] at hx
    exact step34 _ _ _ hstep1 hx

theorem process_with_functions_store_not_booking {request : String}
    (hb : is_booking_request (pyLower request) = false)
    (st : ClinicalDataStore) (today now : Nat) :
    (process_with_functions st today now request).2.1 = st := by
  unfold process_with_functions
  by_cases hins : insurance_requested (pyLower request) = true
  · cases hpid : (step_one st request).2.1 with
    | some pid => simp [hins, hpid, steps_three_four_store_not_booking hb]
    | none =>
      cases hnm : extract_patient_name request with
      | some nm => simp [hins, hpid, hnm]
      | none => simp [hins, hpid, hnm, steps_three_four_store_not_booking hb]
  · simp [hins, steps_three_four_store_not_booking hb]

/-- C5: `process_request` invokes the `book_appointment` capability only
when the lowercased instruction contains a booking verb (`schedule`/`book`)
and none of the search verbs; in particular, for every instruction
containing a search verb, no booking capability is invoked and the
appointment collection is unchanged. -/
theorem C5_booking_gate (st : ClinicalDataStore) (today now : Nat) (request : String) :
    (hasBookCall (process_request st today now request).2.2 = true →
      is_booking_request (pyLower request) = true) ∧
    (search_keywords.any (fun k => strContains k (pyLower request)) = true →
      hasBookCall (process_request st today now request).2.2 = false ∧
      (process_request st today now request).2.1.appointments = st.appointments) := by
  cases hv : validate_request request with
  | some msg =>
    constructor
    · intro h
      simp [process_request, hv, hasBookCall] at h
    · intro _
      simp [process_request, hv, hasBookCall]
  | none =>
    rw [process_request_allowed hv]
    have himp : ∀ x ∈ (process_with_functions st today now request).2.2,
        CapCall.isBook x = true → is_booking_request (pyLower request) = true :=
      fun x hx hbx => process_with_functions_book_imp st today now request x hx hbx
    constructor
    · intro h
      unfold hasBookCall at h
      obtain ⟨x, hx, hbx⟩ := List.any_eq_true.mp h
      exact himp x hx hbx
    · intro hsearch
      have hb2 : is_booking_request (pyLower request) = false := by
        simp [is_booking_request, hsearch]
      constructor
      · unfold hasBookCall
        rw [List.any_eq_false]
        intro x hx
        intro hbx
        rw [himp x hx hbx] at hb2
        simp at hb2
      · rw [process_with_functions_store_not_booking hb2 st today now]

/-- Witness for C5: a concrete booking run that does invoke the capability,
and a concrete search instruction that never books. -/
theorem C5_booking_gate_witness :
    hasBookCall
      (process_request sampleStore 100 5
        "Schedule a cardiology appointment for patient Ravi Kumar").2.2 = true ∧
    is_booking_request
      (pyLower "Schedule a cardiology appointment for patient Ravi Kumar") = true ∧
    search_keywords.any
      (fun k => strContains k (pyLower "Find available cardiology appointments")) = true ∧
    hasBookCall (process_request sampleStore 100 5 "Find available cardiology appointments").2.2 =
      false :=
  ⟨by decide,
   (C5_booking_gate sampleStore 100 5 "Schedule a cardiology appointment for patient Ravi Kumar").1
     (by decide),
   by decide,
   ((C5_booking_gate sampleStore 100 5 "Find available cardiology appointments").2 (by decide)).1⟩

theorem process_with_functions_as_steps (st : ClinicalDataStore) (today now : Nat)
    (request : String)
    (hnoins : insurance_abort_triggered st request = false) :
    ∃ results2 trace2,
      process_with_functions st today now request =
        steps_three_four st today now (pyLower request) (resolved_patient_id st request)
          (extract_specialty (pyLower request)) results2 trace2 ∧
      hasBookCall trace2 = false := by
  have htr1 : hasBookCall (step_one st request).2.2 = false := hasBook_step_one st request
  unfold process_with_functions
  by_cases hins : insurance_requested (pyLower request) = true
  · cases hpid : (step_one st request).2.1 with
    | some pid =>
      refine ⟨(step_one st request).1 ++ [⟨"check_insurance_eligibility",
          StepResult.insurance (check_insurance_eligibility st pid)⟩],
        (step_one st request).2.2 ++ [CapCall.checkInsurance pid], ?_, ?_⟩
      · rw [show resolved_patient_id st request = some pid from hpid]
        simp [hins, hpid]
      · unfold hasBookCall
        rw [List.any_eq_false]
        intro y hy
        rcases List.mem_append.mp hy with hy2 | hy2
        · obtain ⟨nm, rfl⟩ := step_one_trace_mem st request y hy2
          simp [CapCall.isBook]
        · rcases List.mem_singleton.mp hy2 with rfl
          simp [CapCall.isBook]
    | none =>
      cases hnm : extract_patient_name request with
      | some nm =>
        exfalso
        unfold insurance_abort_triggered resolved_patient_id at hnoins
        rw [hins, hpid, hnm] at hnoins
        simp at hnoins
      | none =>
        refine ⟨(step_one st request).1, (step_one st request).2.2, ?_, htr1⟩
        rw [show resolved_patient_id st request = none from hpid]
        simp [hins, hpid, hnm]
  · refine ⟨(step_one st request).1, (step_one st request).2.2, ?_, htr1⟩
    simp [hins, resolved_patient_id]

/-- C7: for an allowed instruction classified as a booking request (and not
already aborted by the insurance step), `process_request` requires in order
a resolved patient id, an extracted specialty, and a non-empty slot list
from the slot-search step; if one is missing it fails with the
corresponding specific reason, leaves the store unchanged (no appointment
created, no slot removed) and never invokes the booking capability; when
all three are present it invokes `book_appointment` on the first slot of
the returned list. -/
theorem C7_booking_prerequisites (st : ClinicalDataStore) (today now : Nat) (request : String)
    (hgate : validate_request request = none)
    (hbook : is_booking_request (pyLower request) = true)
    (hnoins : insurance_abort_triggered st request = false) :
    (resolved_patient_id st request = none →
      (process_request st today now request).1.success = false ∧
      (process_request st today now request).1.error =
        some "Cannot book appointment: Patient not found. Please provide patient name." ∧
      (process_request st today now request).2.1 = st ∧
      hasBookCall (process_request st today now request).2.2 = false) ∧
    (∀ p, resolved_patient_id st request = some p →
      extract_specialty (pyLower request) = none →
      (process_request st today now request).1.success = false ∧
      (process_request st today now request).1.error =
        some "Cannot book appointment: Specialty not specified." ∧
      (process_request st today now request).2.1 = st ∧
      hasBookCall (process_request st today now request).2.2 = false) ∧
    (∀ p s, resolved_patient_id st request = some p →
      extract_specialty (pyLower request) = some s →
      bookable_slots st today (pyLower request) (some s) = [] →
      (process_request st today now request).1.success = false ∧
      (process_request st today now request).1.error =
        some "Cannot book appointment: No available slots found." ∧
      (process_request st today now request).2.1 = st ∧
      hasBookCall (process_request st today now request).2.2 = false) ∧
    (∀ p s slot rest, resolved_patient_id st request = some p →
      extract_specialty (pyLower request) = some s →
      bookable_slots st today (pyLower request) (some s) = slot :: rest →
      (process_request st today now request).2.2.getLast? =
        some (CapCall.bookAppointment p slot.slot_id s (booking_reason (pyLower request))) ∧
      (process_request st today now request).2.1 =
        (book_appointment st now p slot.slot_id s (booking_reason (pyLower request))).2) := by
  rw [process_request_allowed hgate]
  obtain ⟨results2, trace2, heq, htr2⟩ :=
    process_with_functions_as_steps st today now request hnoins
  have htr2u : trace2.any CapCall.isBook = false := htr2
  rw [heq]
  refine ⟨?_, ?_, ?_, ?_⟩
  · intro ha
    rw [ha]
    unfold steps_three_four
    rw [if_pos hbook]
    cases hsp2 : extract_specialty (pyLower request) with
    | none => exact ⟨rfl, rfl, rfl, htr2⟩
    | some s =>
      refine ⟨rfl, rfl, rfl, ?_⟩
      simp [hasBookCall, List.any_append, CapCall.isBook, htr2u]
  · intro p hp hs
    rw [hp, hs]
    unfold steps_three_four
    rw [if_pos hbook]
    exact ⟨rfl, rfl, rfl, htr2⟩
  · intro p s hp hs hbl
    rw [hp, hs]
    unfold steps_three_four
    rw [if_pos hbook, hbl]
    refine ⟨rfl, rfl, rfl, ?_⟩
    simp [hasBookCall, List.any_append, CapCall.isBook, htr2u]
  · intro p s slot rest hp hs hbl
    rw [hp, hs]
    unfold steps_three_four
    rw [if_pos hbook, hbl]
    exact ⟨List.getLast?_concat _, rfl⟩

/-- Witness for C7: the patient-missing abort at a concrete instruction,
and the booking of the first returned slot when all prerequisites hold. -/
theorem C7_booking_prerequisites_witness :
    resolved_patient_id sampleStore "Schedule a cardiology appointment" = none ∧
    (process_request sampleStore 100 5 "Schedule a cardiology appointment").1.error =
      some "Cannot book appointment: Patient not found. Please provide patient name." ∧
    (process_request sampleStore 100 5 "Schedule a cardiology appointment").2.1 = sampleStore ∧
    (process_request sampleStore 100 5
        "Schedule a cardiology appointment for patient Ravi Kumar").2.2.getLast? =
      some (CapCall.bookAppointment "PAT001" "SLOT-0001" "Cardiology"
        (booking_reason (pyLower "Schedule a cardiology appointment for patient Ravi Kumar"))) :=
  ⟨by decide,
   ((C7_booking_prerequisites sampleStore 100 5 "Schedule a cardiology appointment"
      (by decide) (by decide) (by decide)).1 (by decide)).2.1,
   ((C7_booking_prerequisites sampleStore 100 5 "Schedule a cardiology appointment"
      (by decide) (by decide) (by decide)).1 (by decide)).2.2.1,
   ((C7_booking_prerequisites sampleStore 100 5
      "Schedule a cardiology appointment for patient Ravi Kumar"
      (by decide) (by decide) (by decide)).2.2.2 "PAT001" "Cardiology" sampleSlot1
      [sampleSlot2] (by decide) (by decide) (by decide)).1⟩

/-- C9 counterexample: the claim quantifies over all store operations, but
`create_appointment` performs no slot check, so invoking it directly (not
sequenced behind `book_slot` by the booking capability) on a store of the
initial shape yields a state in which slot `SLOT-0001` is simultaneously
available and consumed by an appointment. -/
theorem C9_counterexample :
    InitialShape sampleStore ∧
    (SlotIdsNodup sampleStore ∧ ExclusiveSlots sampleStore) ∧
    ¬ ExclusiveSlots (applyStoreOp sampleStore (StoreOp.createAppointment
      { patient_id := "PAT001", patient_name := "Ravi Kumar", slot_id := "SLOT-0001",
        specialty := "Cardiology", date := 101, time := "09:00", doctor := "Dr. Anil Reddy",
        duration_minutes := 30, reason := "Checkup", status := "Confirmed" } 0)) := by
  refine ⟨⟨rfl, by decide⟩,
    ⟨(by decide : (allSlotIds sampleStore.available_slots).Nodup),
     fun a ha => absurd ha (List.not_mem_nil a)⟩, ?_⟩
  intro hex
  exact hex
    { appointment_id := "APT-0001", created_at := 0, patient_id := "PAT001",
      patient_name := "Ravi Kumar", slot_id := "SLOT-0001", specialty := "Cardiology",
      date := 101, time := "09:00", doctor := "Dr. Anil Reddy", duration_minutes := 30,
      reason := "Checkup", status := "Confirmed" }
    (by decide) (by decide)

/-- C9 as amended: in every state reachable from an initial-shape store by
store operations in which `create_appointment` is only invoked through the
booking capability (as the specification's sequencing contract requires),
each slot identifier appears in at most one specialty's available
collection and at most once, and no slot identifier is simultaneously
available and consumed by an appointment. -/
theorem C9_invariant (st0 : ClinicalDataStore) (h0 : InitialShape st0)
    (ops : List StoreOp) (hops : ∀ op ∈ ops, op.isRawCreate = false) :
    SlotIdsNodup (applyStoreOps st0 ops) ∧ ExclusiveSlots (applyStoreOps st0 ops) :=
  storeInv_applyStoreOps (storeInv_of_initialShape h0) ops hops

/-- Witness for the amended C9: the invariant after one concrete booking. -/
theorem C9_invariant_witness :
    InitialShape sampleStore ∧
    (∀ op ∈ [StoreOp.bookAppointment 0 "PAT001" "SLOT-0001" "Cardiology" none],
      op.isRawCreate = false) ∧
    SlotIdsNodup (applyStoreOps sampleStore
      [StoreOp.bookAppointment 0 "PAT001" "SLOT-0001" "Cardiology" none]) :=
  ⟨⟨rfl, by decide⟩, by decide,
   (C9_invariant sampleStore ⟨rfl, by decide⟩ _ (by decide)).1⟩

/-- C1 counterexample: after `SLOT-0001` is successfully booked, a later
`book_appointment` naming that slot id but a nonexistent patient does fail
and creates no appointment, yet its error is the patient-not-found message,
not the slot-unavailable message the claim asserts for every later call. -/
theorem C1_counterexample :
    (book_appointment sampleStore 0 "PAT001" "SLOT-0001" "Cardiology" none).1.success = true ∧
    (book_appointment (book_appointment sampleStore 0 "PAT001" "SLOT-0001" "Cardiology" none).2
        1 "NOPE" "SLOT-0001" "Cardiology" none).1.success = false ∧
    (book_appointment (book_appointment sampleStore 0 "PAT001" "SLOT-0001" "Cardiology" none).2
        1 "NOPE" "SLOT-0001" "Cardiology" none).1.error = some "Patient NOPE not found" ∧
    (book_appointment (book_appointment sampleStore 0 "PAT001" "SLOT-0001" "Cardiology" none).2
        1 "NOPE" "SLOT-0001" "Cardiology" none).1.error ≠
      some ("Slot " ++ "SLOT-0001" ++ " not available for specialty " ++ "Cardiology") := by
  refine ⟨by decide, by decide, by decide, by decide⟩

/-- C1 as amended: from any initial-shape store, once a booking of slot id
`sid` has succeeded, every later `book_appointment` call naming `sid`
returns `success = false` and leaves the store unchanged (so no appointment
is created), with the slot-unavailable error whenever the named patient
exists; and no later `find_available_slots` call, for any specialty and
window, returns a slot whose identifier is `sid`. -/
theorem C1_slot_consumed (st0 : ClinicalDataStore) (h0 : InitialShape st0)
    (ops1 : List StoreOp) (now : Nat) (pid sid sp : String) (reason : Option String)
    (st st1 st2 : ClinicalDataStore) (ops2 : List StoreOp)
    (hst : st = applyStoreOps st0 ops1)
    (hsucc : (book_appointment st now pid sid sp reason).1.success = true)
    (hst1 : st1 = (book_appointment st now pid sid sp reason).2)
    (hst2 : st2 = applyStoreOps st1 ops2)
    (now2 : Nat) (pid2 sp2 : String) (r2 : Option String)
    (today3 : Nat) (sp3 : String) (sd3 : Option Nat) (da3 : Nat) :
    (book_appointment st2 now2 pid2 sid sp2 r2).1.success = false ∧
    (book_appointment st2 now2 pid2 sid sp2 r2).2 = st2 ∧
    (get_patient_by_id st2 pid2 ≠ none →
      (book_appointment st2 now2 pid2 sid sp2 r2).1.error =
        some ("Slot " ++ sid ++ " not available for specialty " ++ sp2)) ∧
    ∀ s ∈ (find_available_slots st2 today3 sp3 sd3 da3).available_slots, s.slot_id ≠ sid := by
  subst hst
  subst hst1
  subst hst2
  have hnd : SlotIdsNodup (applyStoreOps st0 ops1) := nodup_ids_applyStoreOps h0.2 ops1
  obtain ⟨patient, slot, av2, hp, hf, hb, heq⟩ := book_appointment_success hsucc
  have habs1 : sid ∉ allSlotIds
      (book_appointment (applyStoreOps st0 ops1) now pid sid sp reason).2.available_slots := by
    rw [heq]
    exact bookSlotAux_not_mem hb hnd
  have habs2 := not_mem_ids_applyStoreOps habs1 ops2
  obtain ⟨hfail, hunch, herr⟩ := @book_appointment_stale _ now2 pid2 sid sp2 r2 habs2
  refine ⟨hfail, hunch, herr, ?_⟩
  intro s hs heq2
  have hmem0 : s ∈ get_available_slots
      (applyStoreOps (book_appointment (applyStoreOps st0 ops1) now pid sid sp reason).2 ops2)
      sp3 (some (sd3.getD today3)) (some (sd3.getD today3 + da3)) := hs
  have hmem := mem_get_available_slots_ids (mem_get_available_slots_window hmem0)
  rw [heq2] at hmem
  exact habs2 hmem

/-- Witness for the amended C1: a second booking of the same slot id by the
existing patient fails with the slot-unavailable error. -/
theorem C1_slot_consumed_witness :
    (book_appointment sampleStore 0 "PAT001" "SLOT-0001" "Cardiology" none).1.success = true ∧
    (book_appointment (book_appointment sampleStore 0 "PAT001" "SLOT-0001" "Cardiology" none).2
        1 "PAT001" "SLOT-0001" "Cardiology" none).1.success = false ∧
    (book_appointment (book_appointment sampleStore 0 "PAT001" "SLOT-0001" "Cardiology" none).2
        1 "PAT001" "SLOT-0001" "Cardiology" none).1.error =
      some ("Slot " ++ "SLOT-0001" ++ " not available for specialty " ++ "Cardiology") :=
  ⟨by decide,
   (C1_slot_consumed sampleStore ⟨rfl, by decide⟩ [] 0 "PAT001" "SLOT-0001" "Cardiology" none
      sampleStore _ _ [] rfl (by decide) rfl rfl 1 "PAT001" "Cardiology" none
      100 "Cardiology" none 7).1,
   (C1_slot_consumed sampleStore ⟨rfl, by decide⟩ [] 0 "PAT001" "SLOT-0001" "Cardiology" none
      sampleStore _ _ [] rfl (by decide) rfl rfl 1 "PAT001" "Cardiology" none
      100 "Cardiology" none 7).2.2.1 (by decide)⟩

theorem exists_of_mem_allSlotIds {av : List (String × List Slot)} {sid : String}
    (h : sid ∈ allSlotIds av) : ∃ e ∈ av, ∃ s ∈ e.2, s.slot_id = sid := by
  unfold allSlotIds at h
  rw [List.mem_flatten] at h
  obtain ⟨l, hl, hsl⟩ := h
  rw [List.mem_map] at hl
  obtain ⟨e, he, rfl⟩ := hl
  rw [List.mem_map] at hsl
  obtain ⟨s, hs, hsid⟩ := hsl
  exact ⟨e, he, s, hs, hsid⟩

theorem book_slot_true_of_mem {st : ClinicalDataStore} {sid : String}
    (h : sid ∈ allSlotIds st.available_slots) : (book_slot st sid).1 = true := by
  unfold book_slot
  cases hb : bookSlotAux sid st.available_slots with
  | some av => rfl
  | none =>
    exfalso
    rw [bookSlotAux_eq_none] at hb
    obtain ⟨e, he, s, hs, hsid⟩ := exists_of_mem_allSlotIds h
    have h2 := hb e he
    rw [removeFirstSlot_eq_none] at h2
    exact h2 s hs hsid

theorem removeFirstSlot_eq_filter {sid : String} {l l2 : List Slot}
    (h : removeFirstSlot sid l = some l2)
    (hnd : (l.map (fun s => s.slot_id)).Nodup) :
    l2 = l.filter (fun t => !(t.slot_id == sid)) := by
  obtain ⟨pre, s0, post, hl, hsid, hl2, hpre⟩ := removeFirstSlot_eq_some sid l l2 h
  subst hl; subst hl2; subst hsid
  simp only [List.map_append, List.map_cons] at hnd
  rw [List.nodup_append] at hnd
  obtain ⟨_, hnd2, _⟩ := hnd
  rw [List.nodup_cons] at hnd2
  have hpost : ∀ t ∈ post, ¬(t.slot_id = s0.slot_id) := by
    intro t ht he
    exact hnd2.1 (he ▸ List.mem_map_of_mem _ ht)
  rw [List.filter_append]
  have h1 : pre.filter (fun t => !(t.slot_id == s0.slot_id)) = pre := by
    rw [List.filter_eq_self]
    intro t ht
    simp [hpre t ht]
  have h2 : (s0 :: post).filter (fun t => !(t.slot_id == s0.slot_id)) = post := by
    rw [List.filter_cons]
    simp only [beq_self_eq_true, Bool.not_true, Bool.false_eq_true, if_false]
    rw [List.filter_eq_self]
    intro t ht
    simp [hpost t ht]
  rw [h1, h2]

theorem mem_assoc_ids {av : List (String × List Slot)} {sp sid : String}
    (h : sid ∈ (((av.find? (fun e => e.1 == sp)).map (fun e => e.2)).getD []).map
      (fun s => s.slot_id)) :
    sid ∈ allSlotIds av := by
  cases hf : av.find? (fun e => e.1 == sp) with
  | none => rw [hf] at h; simp at h
  | some e =>
    rw [hf] at h
    simp only [Option.map_some', Option.getD_some] at h
    rw [List.mem_map] at h
    obtain ⟨s, hs, hsid⟩ := h
    exact hsid ▸ mem_allSlotIds_of_mem (List.mem_of_find?_eq_some hf) hs

theorem entry_ids_sublist (st : ClinicalDataStore) (sp : String) :
    List.Sublist ((get_available_slots st sp none none).map (fun s => s.slot_id))
      (allSlotIds st.available_slots) := by
  show List.Sublist
    ((((st.available_slots.find? (fun e => e.1 == sp)).map (fun e => e.2)).getD []).map
      (fun s => s.slot_id)) _
  cases hf : st.available_slots.find? (fun e => e.1 == sp) with
  | none => simp
  | some e =>
    simp only [Option.map_some', Option.getD_some]
    obtain ⟨l1, l2, hsplit⟩ := List.append_of_mem (List.mem_of_find?_eq_some hf)
    rw [hsplit, allSlotIds_append, allSlotIds_cons]
    exact (List.sublist_append_left _ _).trans (List.sublist_append_right _ _)

theorem bookSlotAux_find_effect (sid sp : String) :
    ∀ (av av2 : List (String × List Slot)),
      bookSlotAux sid av = some av2 →
      (allSlotIds av).Nodup →
      sid ∈ (((av.find? (fun e => e.1 == sp)).map (fun e => e.2)).getD []).map
        (fun s => s.slot_id) →
      ((av2.find? (fun e => e.1 == sp)).map (fun e => e.2)).getD [] =
        (((av.find? (fun e => e.1 == sp)).map (fun e => e.2)).getD []).filter
          (fun t => !(t.slot_id == sid)) ∧
      ∀ sp2, sp2 ≠ sp →
        ((av2.find? (fun e => e.1 == sp2)).map (fun e => e.2)).getD [] =
          ((av.find? (fun e => e.1 == sp2)).map (fun e => e.2)).getD [] := by
  intro av
  induction av with
  | nil => intro av2 hb _ _; simp [bookSlotAux] at hb
  | cons e rest ih =>
    obtain ⟨spk, slots⟩ := e
    intro av2 hb hnd hmem
    rw [allSlotIds_cons, List.nodup_append] at hnd
    obtain ⟨hndS, hndR, hdisj⟩ := hnd
    cases hr : removeFirstSlot sid slots with
    | some slots2 =>
      have hav2 : av2 = (spk, slots2) :: rest := by
        simp only [bookSlotAux, hr, Option.some.injEq] at hb
        exact hb.symm
      subst hav2
      have hsidS : sid ∈ slots.map (fun s => s.slot_id) := by
        obtain ⟨p2, s0, p3, hl3, hsid0, _, _⟩ := removeFirstSlot_eq_some sid slots slots2 hr
        rw [hl3]
        exact hsid0 ▸ List.mem_map_of_mem _ (by simp)
      by_cases hk : spk = sp
      · rw [show ((spk, slots) :: rest).find? (fun e => e.1 == sp) = some (spk, slots) from
            List.find?_cons_of_pos _ (by simp [hk])]
        rw [show ((spk, slots2) :: rest).find? (fun e => e.1 == sp) = some (spk, slots2) from
            List.find?_cons_of_pos _ (by simp [hk])]
        refine ⟨?_, ?_⟩
        · simp only [Option.map_some', Option.getD_some]
          exact removeFirstSlot_eq_filter hr hndS
        · intro sp2 hsp2
          rw [show ((spk, slots) :: rest).find? (fun e => e.1 == sp2) =
                rest.find? (fun e => e.1 == sp2) from
              List.find?_cons_of_neg _
                (by simp only [beq_iff_eq]; intro he; exact hsp2 (he ▸ hk))]
          rw [show ((spk, slots2) :: rest).find? (fun e => e.1 == sp2) =
                rest.find? (fun e => e.1 == sp2) from
              List.find?_cons_of_neg _
                (by simp only [beq_iff_eq]; intro he; exact hsp2 (he ▸ hk))]
      · exfalso
        rw [show ((spk, slots) :: rest).find? (fun e => e.1 == sp) =
              rest.find? (fun e => e.1 == sp) from
            List.find?_cons_of_neg _ (by simp only [beq_iff_eq]; exact hk)] at hmem
        exact absurd (mem_assoc_ids hmem) (hdisj hsidS)
    | none =>
      have hb2shape : bookSlotAux sid ((spk, slots) :: rest) =
          (bookSlotAux sid rest).map (fun r => (spk, slots) :: r) := by
        simp [bookSlotAux, hr]
      rw [hb2shape] at hb
      cases hb2 : bookSlotAux sid rest with
      | none => rw [hb2] at hb; simp at hb
      | some r2 =>
        rw [hb2] at hb
        rw [show (some r2).map (fun r => (spk, slots) :: r) = some ((spk, slots) :: r2)
            from rfl] at hb
        injection hb with hb
        subst hb
        by_cases hk : spk = sp
        · exfalso
          rw [show ((spk, slots) :: rest).find? (fun e => e.1 == sp) = some (spk, slots) from
              List.find?_cons_of_pos _ (by simp [hk])] at hmem
          simp only [Option.map_some', Option.getD_some] at hmem
          rw [List.mem_map] at hmem
          obtain ⟨s, hs, hsid0⟩ := hmem
          rw [removeFirstSlot_eq_none] at hr
          exact hr s hs hsid0
        · rw [show ((spk, slots) :: rest).find? (fun e => e.1 == sp) =
                rest.find? (fun e => e.1 == sp) from
              List.find?_cons_of_neg _ (by simp only [beq_iff_eq]; exact hk)] at hmem
          have ih2 := ih r2 hb2 hndR hmem
          refine ⟨?_, ?_⟩
          · rw [show ((spk, slots) :: r2).find? (fun e => e.1 == sp) =
                  r2.find? (fun e => e.1 == sp) from
                List.find?_cons_of_neg _ (by simp only [beq_iff_eq]; exact hk)]
            rw [show ((spk, slots) :: rest).find? (fun e => e.1 == sp) =
                  rest.find? (fun e => e.1 == sp) from
                List.find?_cons_of_neg _ (by simp only [beq_iff_eq]; exact hk)]
            exact ih2.1
          · intro sp2 hsp2
            by_cases hk2 : spk = sp2
            · rw [show ((spk, slots) :: r2).find? (fun e => e.1 == sp2) = some (spk, slots) from
                  List.find?_cons_of_pos _ (by simp [hk2])]
              rw [show ((spk, slots) :: rest).find? (fun e => e.1 == sp2) = some (spk, slots) from
                  List.find?_cons_of_pos _ (by simp [hk2])]
            · rw [show ((spk, slots) :: r2).find? (fun e => e.1 == sp2) =
                    r2.find? (fun e => e.1 == sp2) from
                  List.find?_cons_of_neg _ (by simp only [beq_iff_eq]; exact hk2)]
              rw [show ((spk, slots) :: rest).find? (fun e => e.1 == sp2) =
                    rest.find? (fun e => e.1 == sp2) from
                  List.find?_cons_of_neg _ (by simp only [beq_iff_eq]; exact hk2)]
              exact ih2.2 sp2 hsp2

theorem book_appointment_succeeds {st : ClinicalDataStore} {now : Nat}
    {pid sid sp : String} {reason : Option String} {patient : Patient} {slot : Slot}
    (hp : get_patient_by_id st pid = some patient)
    (hf : (get_available_slots st sp none none).find? (fun s => s.slot_id == sid) = some slot)
    (hbs : (book_slot st sid).1 = true) :
    (book_appointment st now pid sid sp reason).1.success = true := by
  simp [book_appointment, hp, hf, hbs]

/-- C2 counterexample: when the caller passes the empty string as the
reason (a given reason, not an omitted one), the created appointment's
reason is the fixed placeholder rather than the given reason, because the
source's `reason or "Follow-up appointment"` treats `""` as falsy. -/
theorem C2_counterexample :
    (book_appointment sampleStore 5 "PAT001" "SLOT-0001" "Cardiology" (some "")).1.success =
      true ∧
    (book_appointment sampleStore 5 "PAT001" "SLOT-0001" "Cardiology"
        (some "")).2.appointments.map (fun a => a.reason) = ["Follow-up appointment"] ∧
    "Follow-up appointment" ≠ "" := by
  refine ⟨by decide, by decide, by decide⟩

/-- C2 as amended: for a patient present in the store and a slot in the
specialty's available collection (under the slot-id uniqueness invariant),
`book_appointment` succeeds, removes exactly that slot from the specialty's
collection (all other specialties unchanged), and appends exactly one new
appointment whose date/time/doctor/duration come from the slot, whose
patient fields come from the patient, whose status is `Confirmed`, and
whose reason is the given reason when it is non-empty and the fixed
placeholder `Follow-up appointment` when the reason is omitted **or
empty**; any failing call leaves the store unchanged, so removal and
creation happen together or not at all. -/
theorem C2_booking_roundtrip (st : ClinicalDataStore) (now : Nat) (p : Patient)
    (sp : String) (slot : Slot) (reason : Option String)
    (hids : (allSlotIds st.available_slots).Nodup)
    (hp : get_patient_by_id st p.patient_id = some p)
    (hslot : slot ∈ get_available_slots st sp none none) :
    (book_appointment st now p.patient_id slot.slot_id sp reason).1.success = true ∧
    get_available_slots (book_appointment st now p.patient_id slot.slot_id sp reason).2 sp
        none none =
      (get_available_slots st sp none none).filter (fun t => !(t.slot_id == slot.slot_id)) ∧
    (∀ sp2, sp2 ≠ sp →
      get_available_slots (book_appointment st now p.patient_id slot.slot_id sp reason).2 sp2
          none none = get_available_slots st sp2 none none) ∧
    (book_appointment st now p.patient_id slot.slot_id sp reason).2.appointments =
      st.appointments ++
        [{ appointment_id := "APT-" ++ pad4 st.appointment_counter
           created_at := now
           patient_id := p.patient_id
           patient_name := p.name
           slot_id := slot.slot_id
           specialty := sp
           date := slot.date
           time := slot.time
           doctor := slot.doctor
           duration_minutes := slot.duration_minutes
           reason := match reason with
             | some r => if r = "" then "Follow-up appointment" else r
             | none => "Follow-up appointment"
           status := "Confirmed" }] ∧
    (book_appointment st now p.patient_id slot.slot_id sp reason).2.patients = st.patients ∧
    (∀ pid2 sid2 sp2 r2,
      (book_appointment st now pid2 sid2 sp2 r2).1.success = false →
      (book_appointment st now pid2 sid2 sp2 r2).2 = st) := by
  have hf : (get_available_slots st sp none none).find?
      (fun s => s.slot_id == slot.slot_id) = some slot :=
    find?_slot_of_nodup (hids.sublist (entry_ids_sublist st sp)) hslot
  have hsid_all : slot.slot_id ∈ allSlotIds st.available_slots :=
    mem_get_available_slots_ids hslot
  have hbs : (book_slot st slot.slot_id).1 = true := book_slot_true_of_mem hsid_all
  have hsucc : (book_appointment st now p.patient_id slot.slot_id sp reason).1.success = true :=
    book_appointment_succeeds hp hf hbs
  obtain ⟨patient', slot', av2, hp', hf', hb', heq⟩ := book_appointment_success hsucc
  rw [hp] at hp'
  injection hp' with hpp
  subst hpp
  rw [hf] at hf'
  injection hf' with hss
  subst hss
  have hmem : slot.slot_id ∈
      (((st.available_slots.find? (fun e => e.1 == sp)).map (fun e => e.2)).getD []).map
        (fun s => s.slot_id) := List.mem_map_of_mem _ hslot
  have heff := bookSlotAux_find_effect slot.slot_id sp st.available_slots av2 hb' hids hmem
  refine ⟨hsucc, ?_, ?_, ?_, ?_, ?_⟩
  · rw [heq]
    exact heff.1
  · intro sp2 hsp2
    rw [heq]
    exact heff.2 sp2 hsp2
  · rw [heq]
    rfl
  · rw [heq]
  · intro pid2 sid2 sp2 r2 hfail
    exact book_appointment_fail hfail

/-- Witness for the amended C2 at a concrete patient, slot and reason. -/
theorem C2_booking_roundtrip_witness :
    (allSlotIds sampleStore.available_slots).Nodup ∧
    get_patient_by_id sampleStore "PAT001" = some samplePatient ∧
    sampleSlot1 ∈ get_available_slots sampleStore "Cardiology" none none ∧
    (book_appointment sampleStore 5 "PAT001" "SLOT-0001" "Cardiology"
      (some "Chest pain")).1.success = true :=
  ⟨by decide, by decide, by decide,
   (C2_booking_roundtrip sampleStore 5 samplePatient "Cardiology" sampleSlot1
     (some "Chest pain") (by decide) (by decide) (by decide)).1⟩
